import Mathlib

/- Verification development for the hex-grid cartography engine of the
`hexal` repository (Electron/React/TypeScript).

Embedding conventions:
* `src/services/hexGeometry.ts` is embedded over the real numbers; the
  JavaScript expression `Math.sqrt(3)` is idealised as `Real.sqrt 3` and
  IEEE-754 rounding is not modelled.  Comparisons of Euclidean distances
  are kept exactly as in the source (a `Math.sqrt` of a sum of squares
  compared against a bound).
* Grid dimensions and hex coordinates are integers (`ℤ`), as they are in
  every call site of the geometry functions.
* State-manipulating code (reducer cases, the drag state machine, the
  camera targets and the figurine cache) is embedded as pure functions on
  explicit state values; emitted callbacks are collected in lists.
-/

namespace Hexal

/-- Offset hex coordinate (`interface HexCoordinate`, `src/types/Campaign.ts`):
integer column `q` and row `r`. -/
structure HexCoordinate where
  q : ℤ
  r : ℤ
deriving DecidableEq

namespace Geometry

noncomputable section

/-- Size of a hex, center to corner (`HEX_SIZE = 30`). -/
def HEX_SIZE : ℝ := 30

/-- Column stride (`HORIZONTAL_SPACING = HEX_SIZE * 1.5`). -/
def HORIZONTAL_SPACING : ℝ := HEX_SIZE * 1.5

/-- Row stride (`VERTICAL_SPACING = HEX_SIZE * Math.sqrt(3)`). -/
def VERTICAL_SPACING : ℝ := HEX_SIZE * Real.sqrt 3

/-- A point of the drawing surface, in world pixels. -/
structure Point where
  x : ℝ
  y : ℝ

/-- Vertical offset of a column: odd columns are shifted down half a row
stride (the expression `coord.q % 2 === 0 ? 0 : VERTICAL_SPACING / 2`,
shared by `hexCenter` and `coordinateAt`). -/
def rowOffset (q : ℤ) : ℝ := if q % 2 = 0 then 0 else VERTICAL_SPACING / 2

/-- Center point of the hex at a coordinate (`hexCenter`). -/
def hexCenter (coord : HexCoordinate) : Point :=
  { x := coord.q * HORIZONTAL_SPACING + HEX_SIZE
    y := coord.r * VERTICAL_SPACING + rowOffset coord.q + HEX_SIZE }

/-- A width/height pair of pixel extents. -/
structure Size where
  width : ℝ
  height : ℝ

/-- Canvas size needed for a `width × height` grid (`canvasSize`). -/
def canvasSize (width height : ℤ) : Size :=
  { width := width * HORIZONTAL_SPACING + HEX_SIZE
    height := height * VERTICAL_SPACING + VERTICAL_SPACING / 2 + HEX_SIZE }

/-- Euclidean distance between two points, written exactly as in the source:
`Math.sqrt(Math.pow(point.x - center.x, 2) + Math.pow(point.y - center.y, 2))`. -/
def pointDistance (p c : Point) : ℝ :=
  Real.sqrt ((p.x - c.x) ^ 2 + (p.y - c.y) ^ 2)

/-- Approximated column of a point (`Math.floor((point.x - HEX_SIZE / 2) / HORIZONTAL_SPACING)`). -/
def approxQ (p : Point) : ℤ := ⌊(p.x - HEX_SIZE / 2) / HORIZONTAL_SPACING⌋

/-- Approximated row of a point given its approximated column
(`Math.floor((point.y - yOffset) / VERTICAL_SPACING)`). -/
def approxR (p : Point) (q : ℤ) : ℤ := ⌊(p.y - rowOffset q) / VERTICAL_SPACING⌋

/-- The four orthogonal-offset neighbors checked by `coordinateAt`, in source
order: `{q-1, r}, {q+1, r}, {q, r-1}, {q, r+1}`. -/
def neighborCandidates (q r : ℤ) : List HexCoordinate :=
  [⟨q - 1, r⟩, ⟨q + 1, r⟩, ⟨q, r - 1⟩, ⟨q, r + 1⟩]

/-- The neighbor loop of `coordinateAt`: skip out-of-bounds candidates and
return the first neighbor whose center is strictly closer than the candidate
cell's and within `HEX_SIZE`. -/
def findNeighbor (p : Point) (gridWidth gridHeight : ℤ) (distance : ℝ) :
    List HexCoordinate → Option HexCoordinate
  | [] => none
  | n :: rest =>
      if n.q < 0 ∨ gridWidth ≤ n.q ∨ n.r < 0 ∨ gridHeight ≤ n.r then
        findNeighbor p gridWidth gridHeight distance rest
      else if pointDistance p (hexCenter n) < distance ∧
          pointDistance p (hexCenter n) ≤ HEX_SIZE then
        some n
      else
        findNeighbor p gridWidth gridHeight distance rest

/-- Find the hex coordinate at a point (`coordinateAt`): approximate column
and row with bounds checks, accept the candidate when the point lies within
`HEX_SIZE` of its center, otherwise scan the four orthogonal neighbors and
fall back to the candidate. -/
def coordinateAt (p : Point) (gridWidth gridHeight : ℤ) : Option HexCoordinate :=
  let q := approxQ p
  if q < 0 ∨ gridWidth ≤ q then none
  else
    let r := approxR p q
    if r < 0 ∨ gridHeight ≤ r then none
    else
      if pointDistance p (hexCenter ⟨q, r⟩) ≤ HEX_SIZE then some ⟨q, r⟩
      else
        match findNeighbor p gridWidth gridHeight (pointDistance p (hexCenter ⟨q, r⟩))
            (neighborCandidates q r) with
        | some n => some n
        | none => some ⟨q, r⟩

lemma one_lt_sqrt3 : (1 : ℝ) < Real.sqrt 3 := by
  rw [show (1 : ℝ) = Real.sqrt 1 from Real.sqrt_one.symm]
  exact Real.sqrt_lt_sqrt (by norm_num) (by norm_num)

lemma sqrt3_lt_two : Real.sqrt 3 < 2 := by
  rw [Real.sqrt_lt' (by norm_num)]
  norm_num

lemma VERTICAL_SPACING_pos : (0 : ℝ) < VERTICAL_SPACING := by
  unfold VERTICAL_SPACING HEX_SIZE
  have h := one_lt_sqrt3
  nlinarith

lemma thirty_lt_VERTICAL_SPACING : (30 : ℝ) < VERTICAL_SPACING := by
  unfold VERTICAL_SPACING HEX_SIZE
  have h := one_lt_sqrt3
  nlinarith

lemma approxQ_hexCenter (c : HexCoordinate) : approxQ (hexCenter c) = c.q := by
  unfold approxQ hexCenter
  have h : ((c.q : ℝ) * HORIZONTAL_SPACING + HEX_SIZE - HEX_SIZE / 2) / HORIZONTAL_SPACING
      = (c.q : ℝ) + 1 / 3 := by
    unfold HORIZONTAL_SPACING HEX_SIZE
    ring_nf
  rw [h, Int.floor_int_add]
  have : ⌊(1 / 3 : ℝ)⌋ = 0 := by
    rw [Int.floor_eq_zero_iff]
    constructor <;> norm_num
  omega

lemma approxR_hexCenter (c : HexCoordinate) : approxR (hexCenter c) c.q = c.r := by
  unfold approxR hexCenter
  have hVS := VERTICAL_SPACING_pos
  have h : ((c.r : ℝ) * VERTICAL_SPACING + rowOffset c.q + HEX_SIZE - rowOffset c.q)
      / VERTICAL_SPACING = (c.r : ℝ) + HEX_SIZE / VERTICAL_SPACING := by
    field_simp
    ring
  rw [h, Int.floor_int_add]
  have h30 := thirty_lt_VERTICAL_SPACING
  have hfrac : ⌊HEX_SIZE / VERTICAL_SPACING⌋ = 0 := by
    rw [Int.floor_eq_zero_iff]
    unfold HEX_SIZE
    constructor
    · positivity
    · rw [div_lt_one hVS]
      exact h30
  omega

lemma HORIZONTAL_SPACING_pos : (0 : ℝ) < HORIZONTAL_SPACING := by
  unfold HORIZONTAL_SPACING HEX_SIZE
  norm_num

lemma rowOffset_nonneg (q : ℤ) : 0 ≤ rowOffset q := by
  unfold rowOffset
  have h := VERTICAL_SPACING_pos
  split <;> linarith

lemma rowOffset_le_half (q : ℤ) : rowOffset q ≤ VERTICAL_SPACING / 2 := by
  unfold rowOffset
  have h := VERTICAL_SPACING_pos
  split <;> linarith

/-- The neighbor loop only ever returns an in-bounds neighbor from its input
list, one strictly closer than the candidate distance and within `HEX_SIZE`. -/
lemma findNeighbor_sound (p : Point) (w h : ℤ) (d : ℝ) :
    ∀ l n, findNeighbor p w h d l = some n →
      n ∈ l ∧ 0 ≤ n.q ∧ n.q < w ∧ 0 ≤ n.r ∧ n.r < h ∧
      pointDistance p (hexCenter n) < d ∧ pointDistance p (hexCenter n) ≤ HEX_SIZE := by
  intro l
  induction l with
  | nil =>
      intro n hn
      simp [findNeighbor] at hn
  | cons a rest ih =>
      intro n hn
      unfold findNeighbor at hn
      split_ifs at hn with hb hc
      · rcases ih n hn with ⟨hmem, hrest⟩
        exact ⟨List.mem_cons_of_mem _ hmem, hrest⟩
      · cases hn
        push_neg at hb
        exact ⟨List.mem_cons_self _ _, by omega, by omega, by omega, by omega, hc.1, hc.2⟩
      · rcases ih n hn with ⟨hmem, hrest⟩
        exact ⟨List.mem_cons_of_mem _ hmem, hrest⟩

lemma pointDistance_self (p : Point) : pointDistance p p = 0 := by
  unfold pointDistance
  simp [Real.sqrt_zero]

/-- Core round-trip computation: `coordinateAt` applied to a cell's center on
a grid that contains the cell returns exactly that cell. -/
lemma coordinateAt_hexCenter (c : HexCoordinate) (w h : ℤ)
    (hq0 : 0 ≤ c.q) (hqw : c.q < w) (hr0 : 0 ≤ c.r) (hrh : c.r < h) :
    coordinateAt (hexCenter c) w h = some c := by
  unfold coordinateAt
  simp only [approxQ_hexCenter, approxR_hexCenter]
  rw [if_neg (by omega)]
  rw [if_neg (by omega)]
  have hc : (⟨c.q, c.r⟩ : HexCoordinate) = c := rfl
  rw [hc]
  rw [if_pos]
  rw [pointDistance_self]
  unfold HEX_SIZE
  norm_num

end

end Geometry

open Geometry

/-- C1: for every in-bounds coordinate `c` (`0 ≤ q < gridWidth`,
`0 ≤ r < gridHeight`), `coordinateAt (hexCenter c) gridWidth gridHeight`
returns exactly `some c` — not `none` and not a different coordinate. -/
theorem coordinateAt_roundTrip (c : HexCoordinate) (w h : ℤ)
    (hq0 : 0 ≤ c.q) (hqw : c.q < w) (hr0 : 0 ≤ c.r) (hrh : c.r < h) :
    coordinateAt (hexCenter c) w h = some c :=
  Geometry.coordinateAt_hexCenter c w h hq0 hqw hr0 hrh

/-- Witness for C1: the round trip at the concrete coordinate `(0, 0)` of a
1×1 grid. -/
theorem coordinateAt_roundTrip_witness :
    (0 : ℤ) ≤ 0 ∧ coordinateAt (hexCenter ⟨0, 0⟩) 1 1 = some ⟨0, 0⟩ :=
  ⟨le_refl 0,
    coordinateAt_roundTrip ⟨0, 0⟩ 1 1 (by decide) (by decide) (by decide) (by decide)⟩

namespace Geometry

noncomputable section

lemma approxQ_neg_of_x_neg (p : Point) (hx : p.x < 0) : approxQ p < 0 := by
  unfold approxQ
  have h45 := HORIZONTAL_SPACING_pos
  have hhs : (0 : ℝ) < HEX_SIZE := by unfold HEX_SIZE; norm_num
  have : (p.x - HEX_SIZE / 2) / HORIZONTAL_SPACING < 0 :=
    div_neg_of_neg_of_pos (by linarith) h45
  exact_mod_cast Int.floor_lt.2 (by exact_mod_cast this)

lemma le_approxQ_of_x_ge (p : Point) (w : ℤ)
    (hx : (w : ℝ) * HORIZONTAL_SPACING + HEX_SIZE ≤ p.x) : w ≤ approxQ p := by
  unfold approxQ
  apply Int.le_floor.2
  rw [le_div_iff₀ HORIZONTAL_SPACING_pos]
  unfold HORIZONTAL_SPACING HEX_SIZE at *
  linarith

lemma approxR_neg_of_y_neg (p : Point) (q : ℤ) (hy : p.y < 0) : approxR p q < 0 := by
  unfold approxR
  have hVS := VERTICAL_SPACING_pos
  have hro := rowOffset_nonneg q
  have : (p.y - rowOffset q) / VERTICAL_SPACING < 0 :=
    div_neg_of_neg_of_pos (by linarith) hVS
  exact_mod_cast Int.floor_lt.2 (by exact_mod_cast this)

lemma le_approxR_of_y_ge (p : Point) (q h : ℤ)
    (hy : (h : ℝ) * VERTICAL_SPACING + VERTICAL_SPACING / 2 + HEX_SIZE ≤ p.y) :
    h ≤ approxR p q := by
  unfold approxR
  have hVS := VERTICAL_SPACING_pos
  have hro := rowOffset_le_half q
  have hhs : (0 : ℝ) < HEX_SIZE := by unfold HEX_SIZE; norm_num
  apply Int.le_floor.2
  rw [le_div_iff₀ hVS]
  linarith

end

end Geometry

/-- C7: `coordinateAt` returns `none` for every point outside the rendered
extent given by `canvasSize`, and for every point whose approximated column
or row falls outside the grid; any non-`none` result is an in-bounds
coordinate. -/
theorem coordinateAt_outOfRange (p : Point) (w h : ℤ) :
    ((p.x < 0 ∨ (canvasSize w h).width ≤ p.x ∨
        p.y < 0 ∨ (canvasSize w h).height ≤ p.y) → coordinateAt p w h = none) ∧
    ((approxQ p < 0 ∨ w ≤ approxQ p) → coordinateAt p w h = none) ∧
    ((approxR p (approxQ p) < 0 ∨ h ≤ approxR p (approxQ p)) →
      coordinateAt p w h = none) ∧
    (∀ c, coordinateAt p w h = some c → 0 ≤ c.q ∧ c.q < w ∧ 0 ≤ c.r ∧ c.r < h) := by
  have hqCase : (approxQ p < 0 ∨ w ≤ approxQ p) → coordinateAt p w h = none := by
    intro hq
    unfold coordinateAt
    rw [if_pos hq]
  have hrCase : (approxR p (approxQ p) < 0 ∨ h ≤ approxR p (approxQ p)) →
      coordinateAt p w h = none := by
    intro hr
    by_cases hq : approxQ p < 0 ∨ w ≤ approxQ p
    · exact hqCase hq
    · unfold coordinateAt
      rw [if_neg hq, if_pos hr]
  refine ⟨?_, hqCase, hrCase, ?_⟩
  · rintro (hx | hx | hy | hy)
    · exact hqCase (Or.inl (Geometry.approxQ_neg_of_x_neg p hx))
    · refine hqCase (Or.inr (Geometry.le_approxQ_of_x_ge p w ?_))
      simpa [canvasSize] using hx
    · exact hrCase (Or.inl (Geometry.approxR_neg_of_y_neg p (approxQ p) hy))
    · refine hrCase (Or.inr (Geometry.le_approxR_of_y_ge p (approxQ p) h ?_))
      simpa [canvasSize] using hy
  · intro c hc
    by_cases hq : approxQ p < 0 ∨ w ≤ approxQ p
    · rw [hqCase hq] at hc
      cases hc
    · by_cases hr : approxR p (approxQ p) < 0 ∨ h ≤ approxR p (approxQ p)
      · rw [hrCase hr] at hc
        cases hc
      · unfold coordinateAt at hc
        rw [if_neg hq, if_neg hr] at hc
        split_ifs at hc with hd
        · cases hc
          dsimp only
          omega
        · rcases hfind : findNeighbor p w h
              (pointDistance p (hexCenter ⟨approxQ p, approxR p (approxQ p)⟩))
              (neighborCandidates (approxQ p) (approxR p (approxQ p))) with _ | n
          · rw [hfind] at hc
            cases hc
            dsimp only
            omega
          · rw [hfind] at hc
            cases hc
            rcases Geometry.findNeighbor_sound p w h _ _ _ hfind with
              ⟨_, h1, h2, h3, h4, _, _⟩
            exact ⟨h1, h2, h3, h4⟩

/-- Witness for C7: a point with negative x on a 5×5 grid resolves to `none`. -/
theorem coordinateAt_outOfRange_witness :
    coordinateAt ⟨-10, 40⟩ 5 5 = none :=
  (coordinateAt_outOfRange ⟨-10, 40⟩ 5 5).1 (Or.inl (by norm_num))

namespace Geometry

noncomputable section

lemma probe_hexCenter01 :
    hexCenter ⟨0, 1⟩ = ⟨30, 30 * Real.sqrt 3 + 30⟩ := by
  unfold hexCenter rowOffset VERTICAL_SPACING HORIZONTAL_SPACING HEX_SIZE
  norm_num

lemma probe_hexCenter00 :
    hexCenter ⟨0, 0⟩ = ⟨30, 30⟩ := by
  unfold hexCenter rowOffset VERTICAL_SPACING HORIZONTAL_SPACING HEX_SIZE
  norm_num

lemma probe_dist01 :
    pointDistance ⟨30, 30 * Real.sqrt 3⟩ (hexCenter ⟨0, 1⟩) = 30 := by
  rw [probe_hexCenter01]
  unfold pointDistance
  dsimp only
  rw [show ((30 : ℝ) - 30) ^ 2 + (30 * Real.sqrt 3 - (30 * Real.sqrt 3 + 30)) ^ 2
      = 30 ^ 2 by ring]
  exact Real.sqrt_sq (by norm_num)

lemma probe_dist00 :
    pointDistance ⟨30, 30 * Real.sqrt 3⟩ (hexCenter ⟨0, 0⟩) = 30 * Real.sqrt 3 - 30 := by
  have h1 := one_lt_sqrt3
  rw [probe_hexCenter00]
  unfold pointDistance
  dsimp only
  rw [show ((30 : ℝ) - 30) ^ 2 + (30 * Real.sqrt 3 - 30) ^ 2
      = (30 * Real.sqrt 3 - 30) ^ 2 by ring]
  exact Real.sqrt_sq (by nlinarith)

lemma probe_approxQ : approxQ ⟨30, 30 * Real.sqrt 3⟩ = 0 := by
  unfold approxQ HORIZONTAL_SPACING HEX_SIZE
  dsimp only
  rw [Int.floor_eq_iff]
  norm_num

lemma probe_approxR : approxR ⟨30, 30 * Real.sqrt 3⟩ 0 = 1 := by
  unfold approxR
  have hro : rowOffset 0 = 0 := by
    unfold rowOffset
    norm_num
  rw [hro]
  have hVS : ((⟨30, 30 * Real.sqrt 3⟩ : Point).y - 0) / VERTICAL_SPACING = 1 := by
    unfold VERTICAL_SPACING HEX_SIZE
    dsimp only
    rw [sub_zero]
    field_simp
  rw [hVS]
  exact Int.floor_one

/-- Shared evaluation for claim C4: the probe point `(30, 30·√3)` on a 1×2
grid resolves to `(0, 1)` through the early `distance ≤ HEX_SIZE` return,
without the neighbor scan ever running. -/
lemma coordinateAt_probe_eval :
    coordinateAt (⟨30, 30 * Real.sqrt 3⟩ : Point) 1 2 = some ⟨0, 1⟩ := by
  have hq := probe_approxQ
  have hr := probe_approxR
  simp only [coordinateAt, hq, hr]
  rw [if_neg (by omega), if_neg (by omega), if_pos]
  rw [probe_dist01]
  unfold HEX_SIZE
  norm_num

end

end Geometry

/-- C4 counterexample: at the probe point `(30, 30·√3)` on a 1×2 grid,
`coordinateAt` returns `(0, 1)` although the in-bounds orthogonal neighbor
`(0, 0)` is strictly closer (distance `30·√3 − 30 < 30`) and in range, so
the non-null result does not minimize center distance over the candidate
cell and its neighbor set. -/
theorem coordinateAt_notNearest_counterexample :
    coordinateAt (⟨30, 30 * Real.sqrt 3⟩ : Point) 1 2 = some ⟨0, 1⟩ ∧
    (⟨0, 0⟩ : HexCoordinate) ∈ neighborCandidates 0 1 ∧
    (0 : ℤ) ≤ 0 ∧ (0 : ℤ) < 1 ∧ (0 : ℤ) < 2 ∧
    pointDistance ⟨30, 30 * Real.sqrt 3⟩ (hexCenter ⟨0, 0⟩) ≤ HEX_SIZE ∧
    pointDistance ⟨30, 30 * Real.sqrt 3⟩ (hexCenter ⟨0, 0⟩) <
      pointDistance ⟨30, 30 * Real.sqrt 3⟩ (hexCenter ⟨0, 1⟩) := by
  have h1 := Geometry.one_lt_sqrt3
  have h2 := Geometry.sqrt3_lt_two
  refine ⟨Geometry.coordinateAt_probe_eval, ?_, le_refl 0, by norm_num, by norm_num, ?_, ?_⟩
  · unfold neighborCandidates
    simp
  · rw [Geometry.probe_dist00]
    unfold HEX_SIZE
    nlinarith
  · rw [Geometry.probe_dist00, Geometry.probe_dist01]
    nlinarith

/-- C4 amended: for every point that `coordinateAt` resolves to a non-null
coordinate, if the approximated candidate cell's center is within `HEX_SIZE`
the candidate itself is returned (even when a neighbor's center is strictly
closer); a different cell is returned only from the orthogonal neighbor set,
and then it is strictly closer than the candidate and within `HEX_SIZE` —
the first such neighbor in scan order, not necessarily the global
distance minimizer. -/
theorem coordinateAt_disambiguation (p : Point) (w h : ℤ) (c : HexCoordinate)
    (hc : coordinateAt p w h = some c) :
    (pointDistance p (hexCenter ⟨approxQ p, approxR p (approxQ p)⟩) ≤ HEX_SIZE →
      c = ⟨approxQ p, approxR p (approxQ p)⟩) ∧
    (c ≠ ⟨approxQ p, approxR p (approxQ p)⟩ →
      c ∈ neighborCandidates (approxQ p) (approxR p (approxQ p)) ∧
      pointDistance p (hexCenter c) ≤ HEX_SIZE ∧
      pointDistance p (hexCenter c) <
        pointDistance p (hexCenter ⟨approxQ p, approxR p (approxQ p)⟩)) := by
  simp only [coordinateAt] at hc
  by_cases hq : approxQ p < 0 ∨ w ≤ approxQ p
  · rw [if_pos hq] at hc
    cases hc
  · rw [if_neg hq] at hc
    by_cases hr : approxR p (approxQ p) < 0 ∨ h ≤ approxR p (approxQ p)
    · rw [if_pos hr] at hc
      cases hc
    · rw [if_neg hr] at hc
      by_cases hd : pointDistance p (hexCenter ⟨approxQ p, approxR p (approxQ p)⟩) ≤ HEX_SIZE
      · rw [if_pos hd] at hc
        cases hc
        exact ⟨fun _ => rfl, fun hne => absurd rfl hne⟩
      · rw [if_neg hd] at hc
        rcases hfind : findNeighbor p w h
            (pointDistance p (hexCenter ⟨approxQ p, approxR p (approxQ p)⟩))
            (neighborCandidates (approxQ p) (approxR p (approxQ p))) with _ | n
        · rw [hfind] at hc
          cases hc
          exact ⟨fun habs => absurd habs hd, fun hne => absurd rfl hne⟩
        · rw [hfind] at hc
          cases hc
          rcases Geometry.findNeighbor_sound p w h _ _ _ hfind with
            ⟨hmem, _, _, _, _, hlt, hle⟩
          exact ⟨fun habs => absurd habs hd, fun _ => ⟨hmem, hle, hlt⟩⟩

/-- Witness for C4 (amended): applying the disambiguation theorem at the
probe point, whose candidate cell `(0, 1)` is within `HEX_SIZE`, yields that
the candidate itself is returned there. -/
theorem coordinateAt_disambiguation_witness :
    (⟨0, 1⟩ : HexCoordinate) =
      ⟨approxQ ⟨30, 30 * Real.sqrt 3⟩,
        approxR ⟨30, 30 * Real.sqrt 3⟩ (approxQ ⟨30, 30 * Real.sqrt 3⟩)⟩ :=
  (coordinateAt_disambiguation ⟨30, 30 * Real.sqrt 3⟩ 1 2 ⟨0, 1⟩
    Geometry.coordinateAt_probe_eval).1
    (by
      rw [Geometry.probe_approxQ, Geometry.probe_approxR, Geometry.probe_dist01]
      unfold Geometry.HEX_SIZE
      norm_num)

namespace HexGrid

/-- LOD (level of detail) configuration row (`interface LODConfig`,
`src/components/HexGrid.tsx`): a zoom range plus visibility flags and
sizes/offsets.  Numeric fields are rationals. -/
structure LODConfig where
  minZoom : ℚ
  maxZoom : ℚ
  showBorders : Bool
  showStatusDot : Bool
  showIndicators : Bool
  showIndicatorLetters : Bool
  showCountBadges : Bool
  showCoordLabels : Bool
  showTerrainLabels : Bool
  showContentTitles : Bool
  showMarkers : Bool
  borderWidth : ℚ
  statusDotRadius : ℚ
  indicatorRadius : ℚ
  indicatorFont : ℚ
  indicatorSpacing : ℚ
  badgeRadius : ℚ
  badgeFont : ℚ
  coordFont : ℚ
  coordOpacity : ℚ
  terrainFont : ℚ
  contentTitleFont : ℚ
  indicatorY : ℚ
  terrainY : ℚ
  contentTitleY : ℚ
  coordY : ℚ
deriving DecidableEq

/-- Level 0: Minimal (0.15 - 0.25). -/
def lodLevel0 : LODConfig :=
  { minZoom := 0.15, maxZoom := 0.25,
    showBorders := false, showStatusDot := false, showIndicators := false,
    showIndicatorLetters := false, showCountBadges := false, showCoordLabels := false,
    showTerrainLabels := false, showContentTitles := false, showMarkers := true,
    borderWidth := 0, statusDotRadius := 0, indicatorRadius := 0, indicatorFont := 0,
    indicatorSpacing := 0, badgeRadius := 0, badgeFont := 0, coordFont := 0,
    coordOpacity := 0, terrainFont := 0, contentTitleFont := 0, indicatorY := 0,
    terrainY := 0, contentTitleY := 0, coordY := 0 }

/-- Level 1: Overview (0.25 - 0.40). -/
def lodLevel1 : LODConfig :=
  { lodLevel0 with
    minZoom := 0.25
    maxZoom := 0.40
    showBorders := true
    borderWidth := 0.5 }

/-- Level 2: Region (0.40 - 0.60). -/
def lodLevel2 : LODConfig :=
  { lodLevel1 with
    minZoom := 0.40
    maxZoom := 0.60
    showStatusDot := true
    borderWidth := 0.75
    statusDotRadius := 3 }

/-- Level 3: Area (0.60 - 0.80). -/
def lodLevel3 : LODConfig :=
  { lodLevel2 with
    minZoom := 0.60
    maxZoom := 0.80
    showIndicators := true
    borderWidth := 1
    indicatorRadius := 2
    indicatorSpacing := 6
    indicatorY := -16 }

/-- Level 4: Standard (0.80 - 1.00). -/
def lodLevel4 : LODConfig :=
  { lodLevel3 with
    minZoom := 0.80
    maxZoom := 1.00
    showCoordLabels := true
    coordFont := 6
    coordOpacity := 0.5
    coordY := 18 }

/-- Level 5: Detailed (1.00 - 1.50). -/
def lodLevel5 : LODConfig :=
  { lodLevel4 with
    minZoom := 1.00
    maxZoom := 1.50
    showCountBadges := true
    statusDotRadius := 4
    indicatorRadius := 3
    indicatorSpacing := 8
    badgeRadius := 3
    badgeFont := 4
    coordFont := 5
    coordOpacity := 0.7
    indicatorY := -15 }

/-- Level 6: Close (1.50 - 2.50). -/
def lodLevel6 : LODConfig :=
  { lodLevel5 with
    minZoom := 1.50
    maxZoom := 2.50
    showTerrainLabels := true
    coordFont := 4
    coordOpacity := 0.8
    terrainFont := 6
    terrainY := 6
    coordY := 20 }

/-- Level 7: Immersive (2.50 - 5.01). -/
def lodLevel7 : LODConfig :=
  { lodLevel6 with
    minZoom := 2.50
    maxZoom := 5.01
    showCountBadges := false
    showCoordLabels := false
    showContentTitles := true
    borderWidth := 1.5
    statusDotRadius := 3
    indicatorRadius := 2
    indicatorSpacing := 6
    badgeRadius := 0
    badgeFont := 0
    coordFont := 0
    coordOpacity := 0
    terrainFont := 4
    contentTitleFont := 3
    indicatorY := -18
    terrainY := 4
    contentTitleY := 14
    coordY := 0 }

/-- The fixed, ordered LOD table (`LOD_LEVELS`). -/
def LOD_LEVELS : List LODConfig :=
  [lodLevel0, lodLevel1, lodLevel2, lodLevel3, lodLevel4, lodLevel5, lodLevel6, lodLevel7]

/-- The per-row test of `getLOD`:
`zoomLevel >= level.minZoom && zoomLevel < level.maxZoom`. -/
def lodMatches (zoomLevel : ℚ) (level : LODConfig) : Bool :=
  decide (level.minZoom ≤ zoomLevel) && decide (zoomLevel < level.maxZoom)

/-- Get the LOD config for the current zoom level (`getLOD`): the first row
whose range contains the zoom, else the last row
(`LOD_LEVELS[LOD_LEVELS.length - 1]`, which is `lodLevel7`). -/
def getLOD (zoomLevel : ℚ) : LODConfig :=
  match LOD_LEVELS.find? (lodMatches zoomLevel) with
  | some level => level
  | none => lodLevel7

/-- Adjacent rows of the LOD table meet exactly: each row's `maxZoom` is the
next row's `minZoom`. -/
def lodContiguous : Prop :=
  lodLevel0.maxZoom = lodLevel1.minZoom ∧
  lodLevel1.maxZoom = lodLevel2.minZoom ∧
  lodLevel2.maxZoom = lodLevel3.minZoom ∧
  lodLevel3.maxZoom = lodLevel4.minZoom ∧
  lodLevel4.maxZoom = lodLevel5.minZoom ∧
  lodLevel5.maxZoom = lodLevel6.minZoom ∧
  lodLevel6.maxZoom = lodLevel7.minZoom

end HexGrid

open HexGrid

/-- C6: `getLOD` returns the first table row whose half-open zoom range
contains the zoom value and the last row as fallback when none does; the
table's ranges are contiguous; and for every zoom in the engine's zoom
bounds `[0.15, 5.0]` the returned config's range contains the zoom. -/
theorem getLOD_bucketing (z : ℚ) :
    (∀ l, LOD_LEVELS.find? (lodMatches z) = some l → getLOD z = l) ∧
    (LOD_LEVELS.find? (lodMatches z) = none → getLOD z = lodLevel7) ∧
    lodContiguous ∧
    ((0.15 : ℚ) ≤ z → z ≤ (5.0 : ℚ) →
      (getLOD z).minZoom ≤ z ∧ z < (getLOD z).maxZoom) := by
  refine ⟨?_, ?_, ?_, ?_⟩
  · intro l hl
    unfold getLOD
    rw [hl]
  · intro hnone
    unfold getLOD
    rw [hnone]
  · refine ⟨?_, ?_, ?_, ?_, ?_, ?_, ?_⟩ <;> norm_num [lodLevel0, lodLevel1,
      lodLevel2, lodLevel3, lodLevel4, lodLevel5, lodLevel6, lodLevel7]
  · intro hlo hhi
    rcases hfind : LOD_LEVELS.find? (lodMatches z) with _ | l
    · exfalso
      rw [List.find?_eq_none] at hfind
      have h0 := hfind lodLevel0 (by simp [LOD_LEVELS])
      have h1 := hfind lodLevel1 (by simp [LOD_LEVELS])
      have h2 := hfind lodLevel2 (by simp [LOD_LEVELS])
      have h3 := hfind lodLevel3 (by simp [LOD_LEVELS])
      have h4 := hfind lodLevel4 (by simp [LOD_LEVELS])
      have h5 := hfind lodLevel5 (by simp [LOD_LEVELS])
      have h6 := hfind lodLevel6 (by simp [LOD_LEVELS])
      have h7 := hfind lodLevel7 (by simp [LOD_LEVELS])
      simp only [lodMatches, Bool.and_eq_true, decide_eq_true_eq, not_and,
        not_lt, lodLevel0, lodLevel1, lodLevel2, lodLevel3, lodLevel4,
        lodLevel5, lodLevel6, lodLevel7] at h0 h1 h2 h3 h4 h5 h6 h7
      norm_num at h0 h1 h2 h3 h4 h5 h6 h7 hlo hhi
      have g0 := h0 hlo
      have g1 := h1 g0
      have g2 := h2 g1
      have g3 := h3 g2
      have g4 := h4 g3
      have g5 := h5 g4
      have g6 := h6 g5
      have g7 := h7 g6
      linarith
    · have hl : getLOD z = l := by
        unfold getLOD
        rw [hfind]
      have hp := List.find?_some hfind
      simp only [lodMatches, Bool.and_eq_true, decide_eq_true_eq] at hp
      rw [hl]
      exact hp

/-- Witness for C6: at zoom 1 the returned bucket's range contains 1. -/
theorem getLOD_bucketing_witness :
    (getLOD 1).minZoom ≤ 1 ∧ (1 : ℚ) < (getLOD 1).maxZoom :=
  (getLOD_bucketing 1).2.2.2 (by norm_num) (by norm_num)

namespace Campaign

/-- A placed marker (`interface HexMarker`, `src/types/Markers.ts`):
id, marker-type reference, optional label and color override, visibility
flag, and optional explicit world position. -/
structure HexMarker where
  id : String
  typeId : String
  label : Option String
  color : Option String
  isVisible : Bool
  worldX : Option ℚ
  worldY : Option ℚ
deriving DecidableEq

/-- A hex cell (`interface Hex`, `src/types/Campaign.ts`), restricted to the
fields the marker-movement reducer cases read or write; the randomly
generated UUID `id`, discovery status, tags and the five content-item lists
are carried through the object spreads unchanged and are not modelled.
`markers` is optional: a freshly created cell has no marker list. -/
structure Hex where
  coordinate : HexCoordinate
  terrain : String
  notes : String
  markers : Option (List HexMarker)
deriving DecidableEq

/-- Key of a coordinate in the `hexes` record (`hexKey` / `coordinateKey`,
`src/types/Campaign.ts`): the string `q,r`. -/
def coordinateKey (coord : HexCoordinate) : String :=
  toString coord.q ++ "," ++ toString coord.r

/-- The coordinate-keyed cell lookup `campaign.hexes`: a JavaScript object
modelled as a map from string keys to optional cells. -/
def HexMap : Type := String → Option Hex

/-- Single-key object spread `{ ...hexes, [k1]: v1 }`. -/
def updateOne (hexes : HexMap) (k1 : String) (v1 : Hex) : HexMap :=
  fun k => if k = k1 then some v1 else hexes k

/-- Two-key object spread `{ ...hexes, [k1]: v1, [k2]: v2 }`
(the later key wins on collision). -/
def updateTwo (hexes : HexMap) (k1 : String) (v1 : Hex) (k2 : String) (v2 : Hex) :
    HexMap :=
  fun k => if k = k2 then some v2 else if k = k1 then some v1 else hexes k

/-- `createHex(coordinate)` (`src/types/Campaign.ts`): a fresh cell with
empty terrain and notes and no `markers` list. -/
def createHex (coordinate : HexCoordinate) : Hex :=
  { coordinate := coordinate, terrain := "", notes := "", markers := none }

/-- Reducer case `MOVE_MARKER` of `campaignReducer`
(`src/stores/CampaignContext.tsx`), restricted to its effect on the
`campaign.hexes` record; the timestamp, save-status and undo-history
bookkeeping on the surrounding state does not touch any cell. -/
def moveMarkerCase (hexes : HexMap) (fromCoord toCoord : HexCoordinate)
    (markerId : String) : HexMap :=
  let fromKey := coordinateKey fromCoord
  let toKey := coordinateKey toCoord
  match hexes fromKey with
  | none => hexes
  | some fromHex =>
    match fromHex.markers with
    | none => hexes
    | some fromList =>
      match fromList.find? (fun m => m.id == markerId) with
      | none => hexes
      | some marker =>
        let fromMarkers := fromList.filter (fun m => m.id != markerId)
        let movedMarker := { marker with worldX := none, worldY := none }
        let toHex := (hexes toKey).getD (createHex toCoord)
        let toMarkers := toHex.markers.getD [] ++ [movedMarker]
        updateTwo hexes fromKey { fromHex with markers := some fromMarkers }
          toKey { toHex with markers := some toMarkers }

/-- Reducer case `MOVE_MARKER_TO_POSITION` of `campaignReducer`: set the
explicit world position of the marker with the given id in the given cell. -/
def moveMarkerToPositionCase (hexes : HexMap) (coord : HexCoordinate)
    (markerId : String) (worldX worldY : ℚ) : HexMap :=
  let key := coordinateKey coord
  match hexes key with
  | none => hexes
  | some hex =>
    match hex.markers with
    | none => hexes
    | some ms =>
      let markers := ms.map (fun m =>
        if m.id == markerId then { m with worldX := some worldX, worldY := some worldY }
        else m)
      updateOne hexes key { hex with markers := some markers }

lemma find?_eq_of_filter_eq_singleton {α : Type} {p : α → Bool} {l : List α} {m : α}
    (h : l.filter p = [m]) : l.find? p = some m := by
  induction l with
  | nil => simp at h
  | cons a t ih =>
      by_cases hp : p a
      · rw [List.filter_cons_of_pos hp] at h
        rw [List.cons.injEq] at h
        rw [List.find?_cons_of_pos _ hp, h.1]
      · rw [List.filter_cons_of_neg hp] at h
        rw [List.find?_cons_of_neg _ hp]
        exact ih h

lemma map_eq_self_of_fixed {α : Type} {f : α → α} {l : List α}
    (h : ∀ a ∈ l, f a = a) : l.map f = l := by
  rw [List.map_congr_left h]
  exact List.map_id l

lemma filter_eq_nil_of_none {α : Type} {p : α → Bool} {l : List α}
    (h : ∀ a ∈ l, p a = false) : l.filter p = [] := by
  induction l with
  | nil => rfl
  | cons a t ih =>
      rw [List.filter_cons_of_neg (by simp [h a (List.mem_cons_self a t)])]
      exact ih fun a ha => h a (List.mem_cons_of_mem _ ha)

/-- The pair of store callbacks invoked, in order, by a completed cross-cell
drag (`onDragEnd` in `src/components/HexGrid.tsx`, `wasMoved` branch):
`moveMarker(sourceHex, targetHex, marker.id)` followed by
`moveMarkerToPosition(targetHex, marker.id, worldX, worldY)`. -/
def completedDrag (hexes : HexMap) (fromCoord toCoord : HexCoordinate)
    (markerId : String) (worldX worldY : ℚ) : HexMap :=
  moveMarkerToPositionCase (moveMarkerCase hexes fromCoord toCoord markerId)
    toCoord markerId worldX worldY

/-- `MOVE_MARKER` reduces, under the hypotheses that the source cell exists,
has a marker list, and that list contains the moved marker, to a two-key
object spread: the source keeps everything but the moved id, the destination
receives the moved marker with its position cleared, appended. -/
lemma moveMarkerCase_eq (hexes : HexMap) (A B : HexCoordinate) (M : String)
    (hexA : Hex) (msA : List HexMarker) (mk : HexMarker)
    (hA : hexes (coordinateKey A) = some hexA)
    (hAm : hexA.markers = some msA)
    (hfind : msA.find? (fun m => m.id == M) = some mk) :
    moveMarkerCase hexes A B M =
      updateTwo hexes (coordinateKey A)
        { hexA with markers := some (msA.filter (fun m => m.id != M)) }
        (coordinateKey B)
        { (hexes (coordinateKey B)).getD (createHex B) with
          markers := some
            (((hexes (coordinateKey B)).getD (createHex B)).markers.getD [] ++
              [{ mk with worldX := none, worldY := none }]) } := by
  unfold moveMarkerCase
  dsimp only
  rw [hA]
  dsimp only
  rw [hAm]
  dsimp only
  rw [hfind]

end Campaign

open Campaign

/-- C10: the `MOVE_MARKER` transfer by itself clears the moved marker's
explicit position — the marker appended to the destination cell's list has
`worldX` and `worldY` unset while its id, type, label, color and visibility
are unchanged — and every cell other than the source and the destination
is unchanged. -/
theorem moveMarker_clearsPosition (hexes : HexMap) (A B : HexCoordinate)
    (M : String) (hexA : Hex) (msA : List HexMarker) (mk : HexMarker)
    (hABne : coordinateKey A ≠ coordinateKey B)
    (hA : hexes (coordinateKey A) = some hexA)
    (hAm : hexA.markers = some msA)
    (hfind : msA.find? (fun m => m.id == M) = some mk) :
    (coordinateKey A ≠ coordinateKey B) ∧
    moveMarkerCase hexes A B M (coordinateKey B) =
      some { (hexes (coordinateKey B)).getD (createHex B) with
        markers := some
          (((hexes (coordinateKey B)).getD (createHex B)).markers.getD [] ++
            [{ mk with worldX := none, worldY := none }]) } ∧
    ({ mk with worldX := none, worldY := none } : HexMarker).worldX = none ∧
    ({ mk with worldX := none, worldY := none } : HexMarker).worldY = none ∧
    ({ mk with worldX := none, worldY := none } : HexMarker).id = mk.id ∧
    ({ mk with worldX := none, worldY := none } : HexMarker).typeId = mk.typeId ∧
    ({ mk with worldX := none, worldY := none } : HexMarker).label = mk.label ∧
    ({ mk with worldX := none, worldY := none } : HexMarker).color = mk.color ∧
    ({ mk with worldX := none, worldY := none } : HexMarker).isVisible = mk.isVisible ∧
    (∀ k, k ≠ coordinateKey A → k ≠ coordinateKey B →
      moveMarkerCase hexes A B M k = hexes k) := by
  rw [moveMarkerCase_eq hexes A B M hexA msA mk hA hAm hfind]
  refine ⟨hABne, ?_, rfl, rfl, rfl, rfl, rfl, rfl, rfl, ?_⟩
  · unfold updateTwo
    rw [if_pos rfl]
  · intro k hk1 hk2
    unfold updateTwo
    rw [if_neg hk2, if_neg hk1]

/-- Witness input for the marker-movement claims: marker `m1` of type
`player-1`. -/
def mkZero : HexMarker :=
  { id := "m1", typeId := "player-1", label := none, color := none,
    isVisible := true, worldX := none, worldY := none }

/-- Witness input: the source cell at `(0, 0)` holding exactly `mkZero`. -/
def hexAZero : Hex :=
  { coordinate := ⟨0, 0⟩, terrain := "", notes := "", markers := some [mkZero] }

/-- Witness input: a hexes record with only the source cell present. -/
def hexesZero : HexMap :=
  fun k => if k = coordinateKey ⟨0, 0⟩ then some hexAZero else none

lemma hexesZero_at_A : hexesZero (coordinateKey ⟨0, 0⟩) = some hexAZero := by
  unfold hexesZero
  rw [if_pos rfl]

/-- Witness for C10: moving `m1` from `(0, 0)` to `(1, 0)` on the concrete
one-cell store. -/
theorem moveMarker_clearsPosition_witness :
    coordinateKey ⟨0, 0⟩ ≠ coordinateKey ⟨1, 0⟩ ∧
    moveMarkerCase hexesZero ⟨0, 0⟩ ⟨1, 0⟩ "m1" (coordinateKey ⟨1, 0⟩) =
      some { (hexesZero (coordinateKey ⟨1, 0⟩)).getD (createHex ⟨1, 0⟩) with
        markers := some
          (((hexesZero (coordinateKey ⟨1, 0⟩)).getD (createHex ⟨1, 0⟩)).markers.getD [] ++
            [{ mkZero with worldX := none, worldY := none }]) } :=
  ⟨(moveMarker_clearsPosition hexesZero ⟨0, 0⟩ ⟨1, 0⟩ "m1" hexAZero [mkZero] mkZero
    (by decide) hexesZero_at_A rfl (by rfl)).1,
   (moveMarker_clearsPosition hexesZero ⟨0, 0⟩ ⟨1, 0⟩ "m1" hexAZero [mkZero] mkZero
    (by decide) hexesZero_at_A rfl (by rfl)).2.1⟩

/-- C2: a completed cross-cell drag of marker `M` from cell `A` to a
different cell `B` — the `moveMarker` transfer followed by the
`moveMarkerToPosition` reposition at the release point — removes `M` from
`A`'s marker list, appends exactly one marker with `M`'s id (same type,
color, label and visibility) to `B`'s list, conserves the total marker
count over `A` and `B` together, and changes no other cell. -/
theorem dragTransfer_invariant (hexes : HexMap) (A B : HexCoordinate)
    (M : String) (wx wy : ℚ) (hexA : Hex) (msA : List HexMarker) (mk : HexMarker)
    (hAB : coordinateKey A ≠ coordinateKey B)
    (hA : hexes (coordinateKey A) = some hexA)
    (hAm : hexA.markers = some msA)
    (hone : msA.filter (fun m => m.id == M) = [mk])
    (hBno : ∀ m ∈ ((hexes (coordinateKey B)).getD (createHex B)).markers.getD [],
      (m.id == M) = false) :
    completedDrag hexes A B M wx wy (coordinateKey A) =
      some { hexA with markers := some (msA.filter (fun m => m.id != M)) } ∧
    (msA.filter (fun m => m.id != M)).filter (fun m => m.id == M) = [] ∧
    completedDrag hexes A B M wx wy (coordinateKey B) =
      some { (hexes (coordinateKey B)).getD (createHex B) with
        markers := some
          (((hexes (coordinateKey B)).getD (createHex B)).markers.getD [] ++
            [{ mk with worldX := some wx, worldY := some wy }]) } ∧
    (((hexes (coordinateKey B)).getD (createHex B)).markers.getD [] ++
        [{ mk with worldX := some wx, worldY := some wy }]).filter
          (fun m => m.id == M) = [{ mk with worldX := some wx, worldY := some wy }] ∧
    (mk.id == M) = true ∧
    ({ mk with worldX := some wx, worldY := some wy } : HexMarker).id = mk.id ∧
    ({ mk with worldX := some wx, worldY := some wy } : HexMarker).typeId = mk.typeId ∧
    ({ mk with worldX := some wx, worldY := some wy } : HexMarker).label = mk.label ∧
    ({ mk with worldX := some wx, worldY := some wy } : HexMarker).color = mk.color ∧
    ({ mk with worldX := some wx, worldY := some wy } : HexMarker).isVisible = mk.isVisible ∧
    (msA.filter (fun m => m.id != M)).length +
      (((hexes (coordinateKey B)).getD (createHex B)).markers.getD [] ++
        [{ mk with worldX := some wx, worldY := some wy }]).length =
      msA.length +
        (((hexes (coordinateKey B)).getD (createHex B)).markers.getD []).length ∧
    (∀ k, k ≠ coordinateKey A → k ≠ coordinateKey B →
      completedDrag hexes A B M wx wy k = hexes k) := by
  have hfind := find?_eq_of_filter_eq_singleton hone
  have hmkP : (mk.id == M) = true := by
    have hmk : mk ∈ msA.filter (fun m => m.id == M) := by
      rw [hone]
      exact List.mem_singleton_self mk
    exact (List.mem_filter.1 hmk).2
  have hred := moveMarkerCase_eq hexes A B M hexA msA mk hA hAm hfind
  have hmap : (((hexes (coordinateKey B)).getD (createHex B)).markers.getD [] ++
        [{ mk with worldX := none, worldY := none }]).map
          (fun (m : HexMarker) =>
            if m.id == M then { m with worldX := some wx, worldY := some wy }
            else m) =
      ((hexes (coordinateKey B)).getD (createHex B)).markers.getD [] ++
        [{ mk with worldX := some wx, worldY := some wy }] := by
    rw [List.map_append]
    congr 1
    · refine map_eq_self_of_fixed ?_
      intro m hm
      simp [hBno m hm]
    · simp only [List.map_cons, List.map_nil]
      simp [hmkP]
  have hfinal : completedDrag hexes A B M wx wy =
      updateOne
        (updateTwo hexes (coordinateKey A)
          { hexA with markers := some (msA.filter (fun m => m.id != M)) }
          (coordinateKey B)
          { (hexes (coordinateKey B)).getD (createHex B) with
            markers := some
              (((hexes (coordinateKey B)).getD (createHex B)).markers.getD [] ++
                [{ mk with worldX := none, worldY := none }]) })
        (coordinateKey B)
        { (hexes (coordinateKey B)).getD (createHex B) with
          markers := some
            (((hexes (coordinateKey B)).getD (createHex B)).markers.getD [] ++
              [{ mk with worldX := some wx, worldY := some wy }]) } := by
    unfold completedDrag
    rw [hred]
    unfold moveMarkerToPositionCase
    dsimp only
    rw [show updateTwo hexes (coordinateKey A)
        { hexA with markers := some (msA.filter (fun m => m.id != M)) }
        (coordinateKey B)
        { (hexes (coordinateKey B)).getD (createHex B) with
          markers := some
            (((hexes (coordinateKey B)).getD (createHex B)).markers.getD [] ++
              [{ mk with worldX := none, worldY := none }]) } (coordinateKey B) =
        some { (hexes (coordinateKey B)).getD (createHex B) with
          markers := some
            (((hexes (coordinateKey B)).getD (createHex B)).markers.getD [] ++
              [{ mk with worldX := none, worldY := none }]) } from by
      unfold updateTwo
      rw [if_pos rfl]]
    dsimp only
    rw [hmap]
  have hlenA : msA.length = 1 + (msA.filter (fun m => m.id != M)).length := by
    have h := @List.length_eq_length_filter_add _ msA (fun m => m.id == M)
    rw [hone] at h
    rw [h]
    rfl
  refine ⟨?_, ?_, ?_, ?_, hmkP, rfl, rfl, rfl, rfl, rfl, ?_, ?_⟩
  · rw [hfinal]
    unfold updateOne updateTwo
    rw [if_neg hAB, if_neg hAB, if_pos rfl]
  · refine filter_eq_nil_of_none fun m hm => ?_
    have hbne : (m.id != M) = true := (List.mem_filter.1 hm).2
    rw [bne_iff_ne] at hbne
    exact beq_eq_false_iff_ne.2 hbne
  · rw [hfinal]
    unfold updateOne
    rw [if_pos rfl]
  · rw [List.filter_append, filter_eq_nil_of_none hBno, List.nil_append]
    simp [hmkP]
  · rw [List.length_append, hlenA]
    simp only [List.length_cons, List.length_nil]
    omega
  · intro k hk1 hk2
    rw [hfinal]
    unfold updateOne updateTwo
    rw [if_neg hk2, if_neg hk2, if_neg hk1]

/-- Witness for C2: the completed drag of `m1` from `(0, 0)` to `(1, 0)` on
the concrete one-cell store, released at world position `(45, 60)`. -/
theorem dragTransfer_invariant_witness :
    completedDrag hexesZero ⟨0, 0⟩ ⟨1, 0⟩ "m1" 45 60 (coordinateKey ⟨1, 0⟩) =
      some { (hexesZero (coordinateKey ⟨1, 0⟩)).getD (createHex ⟨1, 0⟩) with
        markers := some
          (((hexesZero (coordinateKey ⟨1, 0⟩)).getD (createHex ⟨1, 0⟩)).markers.getD [] ++
            [{ mkZero with worldX := some 45, worldY := some 60 }]) } :=
  (dragTransfer_invariant hexesZero ⟨0, 0⟩ ⟨1, 0⟩ "m1" 45 60 hexAZero [mkZero] mkZero
    (by decide) hexesZero_at_A rfl (by rfl) (by decide)).2.2.1

namespace Drag

/-- Drag state phases (`type MarkerDragPhase`, `src/hooks/useMarkerDrag.ts`). -/
inductive MarkerDragPhase
  | idle
  | pending
  | dragging
  | dropping
deriving DecidableEq

/-- A screen point in canvas-relative CSS pixels. -/
structure ScreenPoint where
  x : ℚ
  y : ℚ
deriving DecidableEq

/-- Drag state (`interface MarkerDragState`). -/
structure MarkerDragState where
  phase : MarkerDragPhase
  marker : Option Campaign.HexMarker
  sourceHex : Option HexCoordinate
  currentPosition : Option ScreenPoint
  tiltAngle : ℚ
deriving DecidableEq

/-- `DRAG_THRESHOLD = 8` pixels before a pending press becomes a drag. -/
def DRAG_THRESHOLD : ℚ := 8

/-- `MAX_TILT = 5` degrees. -/
def MAX_TILT : ℚ := 5

/-- `MAX_VELOCITY_FOR_TILT = 500` px/sec. -/
def MAX_VELOCITY_FOR_TILT : ℚ := 500

/-- Velocity tracker (`interface VelocityState`); times are the
`performance.now()` samples, passed explicitly. -/
structure VelocityState where
  lastX : ℚ
  lastTime : ℚ
  velocity : ℚ
deriving DecidableEq

/-- The mutable pieces of the `useMarkerDrag` hook: the drag state, the
`dragStartRef` press origin, and the `velocityRef` tracker. -/
structure HookState where
  state : MarkerDragState
  dragStart : Option ScreenPoint
  velocity : VelocityState
deriving DecidableEq

/-- Events delivered to the hook's option callbacks (`onDragStart`,
`onPickup`, `onDrop`, `onDragEnd`), in invocation order. -/
inductive DragEvent
  | dragStartEvent (marker : Campaign.HexMarker) (sourceHex : HexCoordinate)
  | pickup
  | drop
  | dragEnd (marker : Campaign.HexMarker) (sourceHex : HexCoordinate)
      (targetHex : Option HexCoordinate) (wasMoved : Bool)
      (dropPosition : Option ScreenPoint)
deriving DecidableEq

/-- `calculateTilt`: clamp the smoothed velocity and map it to a tilt angle. -/
def calculateTilt (velocity : ℚ) : ℚ :=
  max (-MAX_VELOCITY_FOR_TILT) (min MAX_VELOCITY_FOR_TILT velocity)
    / MAX_VELOCITY_FOR_TILT * MAX_TILT

/-- `updateVelocity(screenX)` with the `performance.now()` sample passed
explicitly: lerp-smooth the horizontal velocity when the time delta is
reasonable, then record the sample. -/
def updateVelocity (v : VelocityState) (now screenX : ℚ) : VelocityState :=
  let dt := now - v.lastTime
  let v1 :=
    if 0 < dt ∧ dt < 100 then
      { v with velocity := v.velocity * 0.7 + (screenX - v.lastX) / dt * 1000 * 0.3 }
    else v
  { v1 with lastX := screenX, lastTime := now }

/-- The reset state written by `cancelDrag` and by a click release. -/
def idleState : MarkerDragState :=
  { phase := .idle, marker := none, sourceHex := none,
    currentPosition := none, tiltAngle := 0 }

/-- `startDrag(marker, hexCoord, screenX, screenY)`: enter `pending`,
record the press origin and seed the velocity tracker. -/
def startDrag (h : HookState) (marker : Campaign.HexMarker)
    (hexCoord : HexCoordinate) (screenX screenY now : ℚ) : HookState :=
  { h with
    state :=
      { phase := .pending
        marker := some marker
        sourceHex := some hexCoord
        currentPosition := some ⟨screenX, screenY⟩
        tiltAngle := 0 }
    dragStart := some ⟨screenX, screenY⟩
    velocity := { lastX := screenX, lastTime := now, velocity := 0 } }

/-- The final branch of `updateDrag` (already dragging, or pending with no
recorded press origin): update position and tilt from the smoothed velocity. -/
def dragMoveStep (h : HookState) (screenX screenY now : ℚ) :
    HookState × List DragEvent :=
  let v' := updateVelocity h.velocity now screenX
  ({ h with
      state :=
        { h.state with
          currentPosition := some ⟨screenX, screenY⟩
          tiltAngle := calculateTilt v'.velocity }
      velocity := v' }, [])

/-- `updateDrag(screenX, screenY)`.  The source gates the pending→dragging
transition on `Math.sqrt(dx*dx + dy*dy) >= DRAG_THRESHOLD`; the square root
being monotone, this is embedded as `dx*dx + dy*dy ≥ DRAG_THRESHOLD²`.
A `pending` state always carries a marker and source (the source asserts
them non-null when firing `onDragStart`); the embedding emits the event
only when both are present. -/
def updateDrag (h : HookState) (screenX screenY now : ℚ) :
    HookState × List DragEvent :=
  let prev := h.state
  if prev.phase = .idle ∨ prev.phase = .dropping then (h, [])
  else if prev.phase = .pending ∧ h.dragStart.isSome then
    match h.dragStart with
    | some start =>
        let dx := screenX - start.x
        let dy := screenY - start.y
        if DRAG_THRESHOLD * DRAG_THRESHOLD ≤ dx * dx + dy * dy then
          let v' := updateVelocity h.velocity now screenX
          ({ h with
              state :=
                { prev with
                  phase := .dragging
                  currentPosition := some ⟨screenX, screenY⟩
                  tiltAngle := calculateTilt v'.velocity }
              velocity := v' },
            (match prev.marker, prev.sourceHex with
             | some m, some s => [DragEvent.dragStartEvent m s]
             | _, _ => []) ++ [DragEvent.pickup])
        else
          ({ h with
              state := { prev with currentPosition := some ⟨screenX, screenY⟩ } },
            [])
    | none => dragMoveStep h screenX screenY now
  else
    dragMoveStep h screenX screenY now

/-- `endDrag(targetHex)`: resolve the release.  `wasMoved` mirrors
`prev.phase === 'dragging' && targetHex !== null && (targetHex.q !==
prev.sourceHex?.q || targetHex.r !== prev.sourceHex?.r)`. -/
def endDrag (h : HookState) (targetHex : Option HexCoordinate) :
    HookState × List DragEvent :=
  let prev := h.state
  if prev.phase = .idle then (h, [])
  else
    let wasMoved : Bool :=
      decide (prev.phase = .dragging) &&
        (match targetHex, prev.sourceHex with
         | some t, some s => decide (t.q ≠ s.q) || decide (t.r ≠ s.r)
         | some _, none => true
         | none, _ => false)
    let events :=
      (if prev.phase = .dragging then [DragEvent.drop] else []) ++
      (match prev.marker, prev.sourceHex with
       | some m, some s =>
           [DragEvent.dragEnd m s targetHex wasMoved prev.currentPosition]
       | _, _ => [])
    if prev.phase = .dragging then
      ({ h with state := { prev with phase := .dropping, tiltAngle := 0 } }, events)
    else
      ({ h with state := idleState }, events)

/-- `cancelDrag()`: reset to idle and clear the press origin. -/
def cancelDrag (h : HookState) : HookState :=
  { h with state := idleState, dragStart := none }

/-- Apply a sequence of `updateDrag` samples `(screenX, screenY, now)`,
collecting the emitted events. -/
def applyMoves (h : HookState) : List (ℚ × ℚ × ℚ) → HookState × List DragEvent
  | [] => (h, [])
  | (x, y, t) :: rest =>
      let r := updateDrag h x y t
      let r2 := applyMoves r.1 rest
      (r2.1, r.2 ++ r2.2)

/-- Store callbacks and feedback effects invoked by `HexGrid`
(`src/components/HexGrid.tsx`) in response to a marker gesture. -/
inductive GridCallback
  | moveMarker (fromCoord toCoord : HexCoordinate) (markerId : String)
  | moveMarkerToPosition (coord : HexCoordinate) (markerId : String)
      (worldX worldY : ℚ)
  | selectMarker (markerId : String) (coord : HexCoordinate)
  | playPickup
  | playDrop
deriving DecidableEq

/-- The `onDragEnd` option `HexGrid` passes to `useMarkerDrag`: convert the
drop position to world coordinates and either transfer then reposition
(target ≠ source) or only reposition (target = source or click). -/
def onDragEndHandler (scaleX scaleY panX panY zoomLevel : ℚ)
    (marker : Campaign.HexMarker) (sourceHex : HexCoordinate)
    (targetHex : Option HexCoordinate) (wasMoved : Bool)
    (dropPosition : Option ScreenPoint) : List GridCallback :=
  match targetHex, dropPosition with
  | some target, some dp =>
      let worldX := (dp.x * scaleX - panX) / zoomLevel
      let worldY := (dp.y * scaleY - panY) / zoomLevel
      if wasMoved then
        [GridCallback.moveMarker sourceHex target marker.id,
         GridCallback.moveMarkerToPosition target marker.id worldX worldY]
      else
        [GridCallback.moveMarkerToPosition sourceHex marker.id worldX worldY]
  | _, _ => []

/-- Route a drag event to the callbacks `HexGrid` wires up: `onPickup`
plays the pickup sound, `onDrop` the drop sound, `onDragEnd` runs the
handler above; no `onDragStart` option is passed. -/
def dispatchEvent (scaleX scaleY panX panY zoomLevel : ℚ) :
    DragEvent → List GridCallback
  | .pickup => [GridCallback.playPickup]
  | .drop => [GridCallback.playDrop]
  | .dragStartEvent _ _ => []
  | .dragEnd m s t w dp => onDragEndHandler scaleX scaleY panX panY zoomLevel m s t w dp

/-- The marker branch of `handleMouseUp`: while a marker gesture is active,
end the drag at the resolved target hex (computed by `coordinateAt` from the
release point, passed here as `targetHex`), and — reading the pre-release
state captured by the closure — treat a still-pending gesture as a marker
selection. -/
def handleMouseUp (h : HookState) (targetHex : Option HexCoordinate)
    (scaleX scaleY panX panY zoomLevel : ℚ) : HookState × List GridCallback :=
  if h.state.phase = .pending ∨ h.state.phase = .dragging ∨
      h.state.phase = .dropping then
    let r := endDrag h targetHex
    let callbacks :=
      (r.2.map (dispatchEvent scaleX scaleY panX panY zoomLevel)).flatten
    let sel :=
      if h.state.phase = .pending then
        match h.state.marker, h.state.sourceHex with
        | some m, some s => [GridCallback.selectMarker m.id s]
        | _, _ => []
      else []
    (r.1, callbacks ++ sel)
  else (h, [])

/-- A sub-threshold move sample leaves a pending gesture pending: only the
recorded position changes and no event fires. -/
lemma updateDrag_pending (h : HookState) (x y t : ℚ) (start : ScreenPoint)
    (hph : h.state.phase = .pending) (hds : h.dragStart = some start)
    (hlt : (x - start.x) * (x - start.x) + (y - start.y) * (y - start.y) <
      DRAG_THRESHOLD * DRAG_THRESHOLD) :
    updateDrag h x y t =
      ({ h with state := { h.state with currentPosition := some ⟨x, y⟩ } }, []) := by
  unfold updateDrag
  dsimp only
  rw [hph, hds]
  rw [if_neg (by simp)]
  rw [if_pos (by simp)]
  dsimp only
  rw [if_neg (not_le.2 hlt)]

/-- Applying any sequence of sub-threshold move samples to a pending
gesture emits no events and preserves the pending phase, the grabbed
marker, the source cell, the press origin, and the presence of a recorded
position. -/
lemma applyMoves_pending (marker : Campaign.HexMarker) (src : HexCoordinate)
    (start : ScreenPoint) :
    ∀ (moves : List (ℚ × ℚ × ℚ)) (h : HookState),
      h.state.phase = .pending →
      h.state.marker = some marker →
      h.state.sourceHex = some src →
      h.dragStart = some start →
      h.state.currentPosition.isSome = true →
      (∀ mv ∈ moves,
        (mv.1 - start.x) * (mv.1 - start.x) + (mv.2.1 - start.y) * (mv.2.1 - start.y) <
          DRAG_THRESHOLD * DRAG_THRESHOLD) →
      (applyMoves h moves).2 = [] ∧
      (applyMoves h moves).1.state.phase = .pending ∧
      (applyMoves h moves).1.state.marker = some marker ∧
      (applyMoves h moves).1.state.sourceHex = some src ∧
      (applyMoves h moves).1.dragStart = some start ∧
      (applyMoves h moves).1.state.currentPosition.isSome = true := by
  intro moves
  induction moves with
  | nil =>
      intro h hph hm hs hds hcp hsub
      exact ⟨rfl, hph, hm, hs, hds, hcp⟩
  | cons mv rest ih =>
      intro h hph hm hs hds hcp hsub
      obtain ⟨x, y, t⟩ := mv
      have hlt := hsub (x, y, t) (List.mem_cons_self _ _)
      have hstep := updateDrag_pending h x y t start hph hds hlt
      have hrest := ih { h with state := { h.state with currentPosition := some ⟨x, y⟩ } }
        hph hm hs hds rfl
        (fun mv hmv => hsub mv (List.mem_cons_of_mem _ hmv))
      unfold applyMoves
      rw [hstep]
      dsimp only
      exact ⟨by simp [hrest.1], hrest.2.1, hrest.2.2.1, hrest.2.2.2.1,
        hrest.2.2.2.2.1, hrest.2.2.2.2.2⟩

/-- With `wasMoved = false`, the `onDragEnd` handler never transfers: it
either does nothing (no target or no position) or repositions the marker
within its source cell. -/
lemma onDragEndHandler_not_moved (scaleX scaleY panX panY zoomLevel : ℚ)
    (marker : Campaign.HexMarker) (src : HexCoordinate)
    (targetHex : Option HexCoordinate) (dp : Option ScreenPoint) :
    onDragEndHandler scaleX scaleY panX panY zoomLevel marker src targetHex false dp
      = [] ∨
    ∃ wx wy,
      onDragEndHandler scaleX scaleY panX panY zoomLevel marker src targetHex false dp
        = [GridCallback.moveMarkerToPosition src marker.id wx wy] := by
  cases targetHex with
  | none => exact Or.inl rfl
  | some t =>
      cases dp with
      | none => exact Or.inl rfl
      | some p =>
          refine Or.inr ⟨(p.x * scaleX - panX) / zoomLevel,
            (p.y * scaleY - panY) / zoomLevel, ?_⟩
          rfl

end Drag

open Drag

/-- C3 counterexample: a press on marker `m1` at `(10, 10)`, one move to
`(12, 11)` (travel `√5 < 8` px, so the gesture stays a click), then a
release over cell `(0, 0)`: the emitted callbacks do include the
reposition callback `moveMarkerToPosition` (with the release-derived world
position), contradicting the claim that only the selection action occurs. -/
theorem clickInvokesReposition_counterexample :
    (handleMouseUp
        (updateDrag (startDrag ⟨idleState, none, ⟨0, 0, 0⟩⟩ mkZero ⟨0, 0⟩ 10 10 0)
          12 11 5).1
        (some ⟨0, 0⟩) 1 1 0 0 1).2 =
      [GridCallback.moveMarkerToPosition ⟨0, 0⟩ "m1" 12 11,
       GridCallback.selectMarker "m1" ⟨0, 0⟩] := by
  simp only [updateDrag, startDrag, idleState, DRAG_THRESHOLD]
  norm_num
  simp [handleMouseUp, endDrag, dispatchEvent, onDragEndHandler, mkZero]

/-- C3 amended: for a press over a marker followed by sub-threshold move
samples and a release, no transfer callback (`moveMarker`) is invoked and no
pickup/drop notifications fire, and the marker-selection action occurs;
however, whenever the release point resolves to a cell, the reposition
callback (`moveMarkerToPosition`) is invoked for the source cell with the
release-derived position. -/
theorem clickBelowThreshold (h0 : HookState) (marker : Campaign.HexMarker)
    (src : HexCoordinate) (sx sy t0 : ℚ) (moves : List (ℚ × ℚ × ℚ))
    (targetHex : Option HexCoordinate) (scaleX scaleY panX panY zoomLevel : ℚ)
    (hsub : ∀ mv ∈ moves,
      (mv.1 - sx) * (mv.1 - sx) + (mv.2.1 - sy) * (mv.2.1 - sy) <
        DRAG_THRESHOLD * DRAG_THRESHOLD) :
    (applyMoves (startDrag h0 marker src sx sy t0) moves).2 = [] ∧
    GridCallback.playPickup ∉
      (handleMouseUp (applyMoves (startDrag h0 marker src sx sy t0) moves).1
        targetHex scaleX scaleY panX panY zoomLevel).2 ∧
    GridCallback.playDrop ∉
      (handleMouseUp (applyMoves (startDrag h0 marker src sx sy t0) moves).1
        targetHex scaleX scaleY panX panY zoomLevel).2 ∧
    (∀ a b c, GridCallback.moveMarker a b c ∉
      (handleMouseUp (applyMoves (startDrag h0 marker src sx sy t0) moves).1
        targetHex scaleX scaleY panX panY zoomLevel).2) ∧
    GridCallback.selectMarker marker.id src ∈
      (handleMouseUp (applyMoves (startDrag h0 marker src sx sy t0) moves).1
        targetHex scaleX scaleY panX panY zoomLevel).2 ∧
    (∀ t, targetHex = some t →
      ∃ wx wy, GridCallback.moveMarkerToPosition src marker.id wx wy ∈
        (handleMouseUp (applyMoves (startDrag h0 marker src sx sy t0) moves).1
          targetHex scaleX scaleY panX panY zoomLevel).2) := by
  have hstart := applyMoves_pending marker src ⟨sx, sy⟩ moves
    (startDrag h0 marker src sx sy t0) rfl rfl rfl rfl rfl hsub
  obtain ⟨hev, hph, hm, hs, hds, hcp⟩ := hstart
  set h2 := (applyMoves (startDrag h0 marker src sx sy t0) moves).1 with hh2
  obtain ⟨cp, hcp'⟩ := Option.isSome_iff_exists.1 hcp
  have hmain : (handleMouseUp h2 targetHex scaleX scaleY panX panY zoomLevel).2 =
      onDragEndHandler scaleX scaleY panX panY zoomLevel marker src targetHex false
        (some cp) ++ [GridCallback.selectMarker marker.id src] := by
    unfold handleMouseUp endDrag
    dsimp only
    rw [hph, hm, hs, hcp']
    simp [dispatchEvent]
  rw [hmain]
  rcases onDragEndHandler_not_moved scaleX scaleY panX panY zoomLevel marker src
      targetHex (some cp) with hnone | ⟨wx, wy, hsome⟩
  · rw [hnone]
    refine ⟨hev, by simp, by simp, by simp, by simp, ?_⟩
    intro t ht
    rw [ht] at hnone
    exact absurd hnone (by simp [onDragEndHandler])
  · rw [hsome]
    refine ⟨hev, by simp, by simp, by simp, by simp, ?_⟩
    intro t ht
    exact ⟨wx, wy, by simp⟩

/-- Witness for C3 (amended): the concrete click trace of the
counterexample also exhibits the selection callback. -/
theorem clickBelowThreshold_witness :
    GridCallback.selectMarker mkZero.id ⟨0, 0⟩ ∈
      (handleMouseUp
        (applyMoves (startDrag ⟨idleState, none, ⟨0, 0, 0⟩⟩ mkZero ⟨0, 0⟩ 10 10 0)
          [(12, 11, 5)]).1
        (some ⟨0, 0⟩) 1 1 0 0 1).2 :=
  (clickBelowThreshold ⟨idleState, none, ⟨0, 0, 0⟩⟩ mkZero ⟨0, 0⟩ 10 10 0
    [(12, 11, 5)] (some ⟨0, 0⟩) 1 1 0 0 1 (by
      intro mv hmv
      rw [List.mem_singleton] at hmv
      subst hmv
      norm_num [DRAG_THRESHOLD])).2.2.2.2.1

namespace Camera

noncomputable section

/-- `MIN_ZOOM = 0.15`. -/
def MIN_ZOOM : ℝ := 0.15

/-- `MAX_ZOOM = 5.0`. -/
def MAX_ZOOM : ℝ := 5.0

/-- `ZOOM_STEP = 0.03` (3% per scroll tick). -/
def ZOOM_STEP : ℝ := 0.03

/-- `ZOOM_ANIMATION_SPEED = 0.12` (lerp factor per animation tick). -/
def ZOOM_ANIMATION_SPEED : ℝ := 0.12

/-- A 2-d screen-space vector (pan offsets, cursor positions, sizes). -/
structure Vec2 where
  x : ℝ
  y : ℝ

/-- Camera state of `HexGrid`: current zoom and pan plus their animation
targets. -/
structure CameraState where
  zoomLevel : ℝ
  panOffset : Vec2
  targetZoom : ℝ
  targetPan : Vec2

/-- One tick of the zoom/pan animation effect (`animate` in `HexGrid`):
when both the zoom difference and the pan differences are within the snap
thresholds, set current values exactly to their targets and stop scheduling
(`false`); otherwise move every current value a `ZOOM_ANIMATION_SPEED`
fraction of the remaining distance and schedule another frame (`true`). -/
def animate (s : CameraState) : CameraState × Bool :=
  let zoomDiff := |s.targetZoom - s.zoomLevel|
  let panDiffX := |s.targetPan.x - s.panOffset.x|
  let panDiffY := |s.targetPan.y - s.panOffset.y|
  if zoomDiff < 0.001 ∧ panDiffX < 0.5 ∧ panDiffY < 0.5 then
    ({ s with zoomLevel := s.targetZoom, panOffset := s.targetPan }, false)
  else
    ({ s with
        zoomLevel := s.zoomLevel + (s.targetZoom - s.zoomLevel) * ZOOM_ANIMATION_SPEED
        panOffset :=
          ⟨s.panOffset.x + (s.targetPan.x - s.panOffset.x) * ZOOM_ANIMATION_SPEED,
            s.panOffset.y + (s.targetPan.y - s.panOffset.y) * ZOOM_ANIMATION_SPEED⟩ },
      true)

/-- The clamped wheel target zoom:
`Math.max(MIN_ZOOM, Math.min(MAX_ZOOM, targetZoom + zoomDelta))` with the
delta sign taken from the scroll direction. -/
def wheelTargetZoom (s : CameraState) (deltaY : ℝ) : ℝ :=
  max MIN_ZOOM (min MAX_ZOOM
    (s.targetZoom + if deltaY < 0 then ZOOM_STEP else -ZOOM_STEP))

/-- `handleWheel`: when the clamped target zoom actually changes, recompute
the target pan — centering the selected cell in the viewport if one is
selected, else keeping the world point under the cursor (measured against
the target camera) fixed — and set the new target zoom. -/
def handleWheel (s : CameraState) (deltaY : ℝ) (cursor viewport : Vec2)
    (selected : Option HexCoordinate) : CameraState :=
  let newTargetZoom := wheelTargetZoom s deltaY
  if newTargetZoom = s.targetZoom then s
  else
    match selected with
    | some coord =>
        let hexWorld := Geometry.hexCenter coord
        { s with
            targetPan := ⟨viewport.x / 2 - hexWorld.x * newTargetZoom,
              viewport.y / 2 - hexWorld.y * newTargetZoom⟩
            targetZoom := newTargetZoom }
    | none =>
        let worldX := (cursor.x - s.targetPan.x) / s.targetZoom
        let worldY := (cursor.y - s.targetPan.y) / s.targetZoom
        { s with
            targetPan := ⟨cursor.x - worldX * newTargetZoom,
              cursor.y - worldY * newTargetZoom⟩
            targetZoom := newTargetZoom }

/-- `zoomIn` (keyboard shortcut): raise the target zoom one step; the target
pan is recomputed only when a cell is selected. -/
def zoomIn (s : CameraState) (viewport : Vec2)
    (selected : Option HexCoordinate) : CameraState :=
  let newTargetZoom := min MAX_ZOOM (s.targetZoom + ZOOM_STEP)
  if newTargetZoom = s.targetZoom then s
  else
    match selected with
    | some coord =>
        let hexWorld := Geometry.hexCenter coord
        { s with
            targetPan := ⟨viewport.x / 2 - hexWorld.x * newTargetZoom,
              viewport.y / 2 - hexWorld.y * newTargetZoom⟩
            targetZoom := newTargetZoom }
    | none => { s with targetZoom := newTargetZoom }

/-- `zoomOut` (keyboard shortcut): mirror image of `zoomIn`. -/
def zoomOut (s : CameraState) (viewport : Vec2)
    (selected : Option HexCoordinate) : CameraState :=
  let newTargetZoom := max MIN_ZOOM (s.targetZoom - ZOOM_STEP)
  if newTargetZoom = s.targetZoom then s
  else
    match selected with
    | some coord =>
        let hexWorld := Geometry.hexCenter coord
        { s with
            targetPan := ⟨viewport.x / 2 - hexWorld.x * newTargetZoom,
              viewport.y / 2 - hexWorld.y * newTargetZoom⟩
            targetZoom := newTargetZoom }
    | none => { s with targetZoom := newTargetZoom }

lemma lerp_abs_le (t c : ℝ) :
    |t - (c + (t - c) * ZOOM_ANIMATION_SPEED)| ≤ |t - c| := by
  rw [show t - (c + (t - c) * ZOOM_ANIMATION_SPEED)
      = (t - c) * (1 - ZOOM_ANIMATION_SPEED) by ring]
  rw [abs_mul]
  unfold ZOOM_ANIMATION_SPEED
  rw [show |1 - (0.12 : ℝ)| = 0.88 by rw [abs_of_pos] <;> norm_num]
  nlinarith [abs_nonneg (t - c)]

end

end Camera

open Camera

/-- C8: every animation tick either snaps current zoom and pan exactly to
their targets when both are within the epsilon thresholds (zoom diff
< 0.001, pan diffs < 0.5) and stops scheduling, or moves each current value
a fixed 0.12 fraction of the remaining distance and keeps scheduling; in
either case the distance from each current value to its target never
increases. -/
theorem cameraTick_monotoneConvergence (s : CameraState) :
    ((|s.targetZoom - s.zoomLevel| < 0.001 ∧ |s.targetPan.x - s.panOffset.x| < 0.5 ∧
        |s.targetPan.y - s.panOffset.y| < 0.5) →
      (animate s).1.zoomLevel = s.targetZoom ∧
      (animate s).1.panOffset = s.targetPan ∧ (animate s).2 = false) ∧
    (¬(|s.targetZoom - s.zoomLevel| < 0.001 ∧ |s.targetPan.x - s.panOffset.x| < 0.5 ∧
        |s.targetPan.y - s.panOffset.y| < 0.5) →
      (animate s).1.zoomLevel =
        s.zoomLevel + (s.targetZoom - s.zoomLevel) * ZOOM_ANIMATION_SPEED ∧
      (animate s).1.panOffset.x =
        s.panOffset.x + (s.targetPan.x - s.panOffset.x) * ZOOM_ANIMATION_SPEED ∧
      (animate s).1.panOffset.y =
        s.panOffset.y + (s.targetPan.y - s.panOffset.y) * ZOOM_ANIMATION_SPEED ∧
      (animate s).2 = true) ∧
    |s.targetZoom - (animate s).1.zoomLevel| ≤ |s.targetZoom - s.zoomLevel| ∧
    |s.targetPan.x - (animate s).1.panOffset.x| ≤ |s.targetPan.x - s.panOffset.x| ∧
    |s.targetPan.y - (animate s).1.panOffset.y| ≤ |s.targetPan.y - s.panOffset.y| := by
  unfold animate
  by_cases hdone : |s.targetZoom - s.zoomLevel| < 0.001 ∧
      |s.targetPan.x - s.panOffset.x| < 0.5 ∧ |s.targetPan.y - s.panOffset.y| < 0.5
  · rw [if_pos hdone]
    refine ⟨fun _ => ⟨rfl, rfl, rfl⟩, fun habs => absurd hdone habs, ?_, ?_, ?_⟩ <;>
      simp [abs_nonneg]
  · rw [if_neg hdone]
    exact ⟨fun habs => absurd habs hdone, fun _ => ⟨rfl, rfl, rfl, rfl⟩,
      Camera.lerp_abs_le _ _, Camera.lerp_abs_le _ _, Camera.lerp_abs_le _ _⟩

/-- Witness for C8: a camera already at its target snaps and stops
scheduling further ticks. -/
theorem cameraTick_monotoneConvergence_witness :
    (animate ⟨1, ⟨0, 0⟩, 1, ⟨0, 0⟩⟩).1.zoomLevel = (1 : ℝ) ∧
    (animate ⟨1, ⟨0, 0⟩, 1, ⟨0, 0⟩⟩).2 = false := by
  have h := (cameraTick_monotoneConvergence ⟨1, ⟨0, 0⟩, 1, ⟨0, 0⟩⟩).1
    (by norm_num)
  exact ⟨h.1, h.2.2⟩

/-- A concrete camera at zoom 1 with zero pan, used by the C5
counterexample and witness. -/
def camZero : CameraState := ⟨1, ⟨0, 0⟩, 1, ⟨0, 0⟩⟩

/-- C5 counterexample: the keyboard `zoomIn` with no selected cell sets a
new target zoom (1 → 1.03) but leaves the target pan untouched, so for a
pointer anchor at x = 100 the pan is not recomputed to
`anchorScreen − anchorWorld × zoom'` (which would be −3). -/
theorem zoomAnchor_counterexample :
    (zoomIn camZero ⟨800, 600⟩ none).targetZoom ≠ camZero.targetZoom ∧
    (zoomIn camZero ⟨800, 600⟩ none).targetPan.x = camZero.targetPan.x ∧
    (zoomIn camZero ⟨800, 600⟩ none).targetPan.y = camZero.targetPan.y ∧
    (zoomIn camZero ⟨800, 600⟩ none).targetPan.x ≠
      100 - (100 - camZero.targetPan.x) / camZero.targetZoom *
        (zoomIn camZero ⟨800, 600⟩ none).targetZoom := by
  have hmin : min MAX_ZOOM (camZero.targetZoom + ZOOM_STEP) = 1.03 := by
    unfold MAX_ZOOM ZOOM_STEP camZero
    norm_num
  have hz : zoomIn camZero ⟨800, 600⟩ none = { camZero with targetZoom := 1.03 } := by
    unfold zoomIn
    rw [hmin]
    rw [if_neg (by unfold camZero; norm_num)]
  rw [hz]
  unfold camZero
  norm_num

/-- C5 amended: the wheel zoom always recomputes the target pan together
with the new target zoom — `pan' = anchorScreen − anchorWorld × zoom'` with
the selected cell's center as anchor when a cell is selected, else the
cursor (whose target-camera world point then stays fixed); the keyboard
`zoomIn`/`zoomOut` recompute the pan the same way only when a cell is
selected, and leave the target pan unchanged otherwise. -/
theorem zoomAnchor_recompute (s : CameraState) (deltaY : ℝ)
    (cursor viewport : Vec2) (c : HexCoordinate) :
    (wheelTargetZoom s deltaY ≠ s.targetZoom →
      (handleWheel s deltaY cursor viewport (some c)).targetZoom =
        wheelTargetZoom s deltaY ∧
      (handleWheel s deltaY cursor viewport (some c)).targetPan.x =
        viewport.x / 2 - (Geometry.hexCenter c).x * wheelTargetZoom s deltaY ∧
      (handleWheel s deltaY cursor viewport (some c)).targetPan.y =
        viewport.y / 2 - (Geometry.hexCenter c).y * wheelTargetZoom s deltaY) ∧
    (wheelTargetZoom s deltaY ≠ s.targetZoom →
      (handleWheel s deltaY cursor viewport none).targetZoom =
        wheelTargetZoom s deltaY ∧
      (handleWheel s deltaY cursor viewport none).targetPan.x =
        cursor.x - (cursor.x - s.targetPan.x) / s.targetZoom * wheelTargetZoom s deltaY ∧
      (handleWheel s deltaY cursor viewport none).targetPan.y =
        cursor.y - (cursor.y - s.targetPan.y) / s.targetZoom * wheelTargetZoom s deltaY) ∧
    (wheelTargetZoom s deltaY ≠ s.targetZoom → wheelTargetZoom s deltaY ≠ 0 →
      (cursor.x - (handleWheel s deltaY cursor viewport none).targetPan.x) /
          (handleWheel s deltaY cursor viewport none).targetZoom =
        (cursor.x - s.targetPan.x) / s.targetZoom ∧
      (cursor.y - (handleWheel s deltaY cursor viewport none).targetPan.y) /
          (handleWheel s deltaY cursor viewport none).targetZoom =
        (cursor.y - s.targetPan.y) / s.targetZoom) ∧
    (min MAX_ZOOM (s.targetZoom + ZOOM_STEP) ≠ s.targetZoom →
      (zoomIn s viewport (some c)).targetZoom =
        min MAX_ZOOM (s.targetZoom + ZOOM_STEP) ∧
      (zoomIn s viewport (some c)).targetPan.x =
        viewport.x / 2 - (Geometry.hexCenter c).x * min MAX_ZOOM (s.targetZoom + ZOOM_STEP) ∧
      (zoomIn s viewport (some c)).targetPan.y =
        viewport.y / 2 - (Geometry.hexCenter c).y * min MAX_ZOOM (s.targetZoom + ZOOM_STEP)) ∧
    (zoomIn s viewport none).targetPan = s.targetPan ∧
    (max MIN_ZOOM (s.targetZoom - ZOOM_STEP) ≠ s.targetZoom →
      (zoomOut s viewport (some c)).targetZoom =
        max MIN_ZOOM (s.targetZoom - ZOOM_STEP) ∧
      (zoomOut s viewport (some c)).targetPan.x =
        viewport.x / 2 - (Geometry.hexCenter c).x * max MIN_ZOOM (s.targetZoom - ZOOM_STEP) ∧
      (zoomOut s viewport (some c)).targetPan.y =
        viewport.y / 2 - (Geometry.hexCenter c).y * max MIN_ZOOM (s.targetZoom - ZOOM_STEP)) ∧
    (zoomOut s viewport none).targetPan = s.targetPan := by
  refine ⟨?_, ?_, ?_, ?_, ?_, ?_, ?_⟩
  · intro hne
    unfold handleWheel
    rw [if_neg hne]
    exact ⟨rfl, rfl, rfl⟩
  · intro hne
    unfold handleWheel
    rw [if_neg hne]
    exact ⟨rfl, rfl, rfl⟩
  · intro hne hz'
    unfold handleWheel
    rw [if_neg hne]
    dsimp only
    constructor
    · rw [show cursor.x - (cursor.x - (cursor.x - s.targetPan.x) / s.targetZoom *
          wheelTargetZoom s deltaY) = (cursor.x - s.targetPan.x) / s.targetZoom *
          wheelTargetZoom s deltaY by ring]
      rw [mul_div_assoc, div_self hz', mul_one]
    · rw [show cursor.y - (cursor.y - (cursor.y - s.targetPan.y) / s.targetZoom *
          wheelTargetZoom s deltaY) = (cursor.y - s.targetPan.y) / s.targetZoom *
          wheelTargetZoom s deltaY by ring]
      rw [mul_div_assoc, div_self hz', mul_one]
  · intro hne
    unfold zoomIn
    rw [if_neg hne]
    exact ⟨rfl, rfl, rfl⟩
  · unfold zoomIn
    by_cases hne : min MAX_ZOOM (s.targetZoom + ZOOM_STEP) = s.targetZoom
    · rw [if_pos hne]
    · rw [if_neg hne]
  · intro hne
    unfold zoomOut
    rw [if_neg hne]
    exact ⟨rfl, rfl, rfl⟩
  · unfold zoomOut
    by_cases hne : max MIN_ZOOM (s.targetZoom - ZOOM_STEP) = s.targetZoom
    · rw [if_pos hne]
    · rw [if_neg hne]

/-- Witness for C5 (amended): wheel zoom-in with no selection at the
concrete camera recomputes the target pan by the anchor formula. -/
theorem zoomAnchor_recompute_witness :
    (handleWheel camZero (-1) ⟨100, 100⟩ ⟨800, 600⟩ none).targetZoom =
      wheelTargetZoom camZero (-1) ∧
    (handleWheel camZero (-1) ⟨100, 100⟩ ⟨800, 600⟩ none).targetPan.x =
      100 - (100 - camZero.targetPan.x) / camZero.targetZoom *
        wheelTargetZoom camZero (-1) ∧
    (handleWheel camZero (-1) ⟨100, 100⟩ ⟨800, 600⟩ none).targetPan.y =
      100 - (100 - camZero.targetPan.y) / camZero.targetZoom *
        wheelTargetZoom camZero (-1) :=
  (zoomAnchor_recompute camZero (-1) ⟨100, 100⟩ ⟨800, 600⟩ ⟨0, 0⟩).2.1
    (by
      unfold wheelTargetZoom camZero MIN_ZOOM MAX_ZOOM ZOOM_STEP
      norm_num)

namespace Figurine

/-- A cache entry (`interface CacheEntry`, `src/services/weather.ts`): the
decoded image — abstracted by its SVG data-URI string, since decoding does
not affect the cache policy — and its last-used timestamp. -/
structure CacheEntry where
  image : String
  lastUsed : ℕ
deriving DecidableEq

/-- `class FigurineCache`: a JavaScript `Map` (insertion-ordered, unique
keys) of entries plus the capacity bound; the global instance is
constructed with `maxSize = 100`. -/
structure FigurineCache where
  entries : List (String × CacheEntry)
  maxSize : ℕ
deriving DecidableEq

/-- `getKey(glyphId, color, size)`: the string `glyphId-color-size` (always
nonempty, so the `if (oldestKey)` guard in the source only fails on an
empty cache). -/
def getKey (glyphId color size : String) : String :=
  glyphId ++ "-" ++ color ++ "-" ++ size

/-- `Map.get`: first (unique) binding of the key. -/
def findEntry (c : FigurineCache) (key : String) : Option CacheEntry :=
  (c.entries.find? (fun e => e.1 == key)).map (fun e => e.2)

/-- The in-place `cached.lastUsed = Date.now()` refresh performed by both
`getImage` and `getImageSync` on a hit; Map order is unchanged. -/
def touch (c : FigurineCache) (key : String) (now : ℕ) : FigurineCache :=
  { c with entries := c.entries.map (fun e =>
      if e.1 == key then (e.1, { e.2 with lastUsed := now }) else e) }

/-- The scan of `evictLRU`: starting from `oldestTime = Infinity`, keep the
first entry with a strictly smaller `lastUsed`. -/
def oldestAux : Option (String × ℕ) → List (String × CacheEntry) →
    Option (String × ℕ)
  | acc, [] => acc
  | acc, e :: rest =>
      match acc with
      | none => oldestAux (some (e.1, e.2.lastUsed)) rest
      | some (k, t) =>
          if e.2.lastUsed < t then oldestAux (some (e.1, e.2.lastUsed)) rest
          else oldestAux (some (k, t)) rest

/-- The oldest (least-recently-used) key and time of the cache, if any. -/
def oldestEntry (l : List (String × CacheEntry)) : Option (String × ℕ) :=
  oldestAux none l

/-- `evictLRU`: do nothing below capacity; otherwise delete the entry with
the least `lastUsed` (`Map.delete` of the unique binding, embedded as
`eraseP` of the first matching binding). -/
def evictLRU (c : FigurineCache) : FigurineCache :=
  if c.entries.length < c.maxSize then c
  else
    match oldestEntry c.entries with
    | none => c
    | some (k, _) =>
        { c with entries := c.entries.eraseP (fun e => e.1 == k) }

/-- The cache effect of one completed `getImage(…)` call: refresh on a hit;
on a miss, once the image has loaded, evict if at capacity and append the
new entry (`Map.set` of an absent key appends). -/
def getImageStep (c : FigurineCache) (key img : String) (now : ℕ) :
    FigurineCache :=
  match findEntry c key with
  | some _ => touch c key now
  | none =>
      let c' := evictLRU c
      { c' with entries := c'.entries ++ [(key, { image := img, lastUsed := now })] }

/-- The cache effect and result of `getImageSync(…)`: refresh and return the
image on a hit, change nothing on a miss. -/
def getImageSyncStep (c : FigurineCache) (key : String) (now : ℕ) :
    FigurineCache × Option String :=
  match findEntry c key with
  | some e => (touch c key now, some e.image)
  | none => (c, none)

/-- `export const figurineCache = new FigurineCache(100)`. -/
def figurineCache : FigurineCache := { entries := [], maxSize := 100 }

lemma oldestAux_cons_none (e : String × CacheEntry) (rest : List (String × CacheEntry)) :
    oldestAux none (e :: rest) = oldestAux (some (e.1, e.2.lastUsed)) rest := rfl

lemma oldestAux_cons_lt {e : String × CacheEntry} {rest : List (String × CacheEntry)}
    {k1 : String} {t1 : ℕ} (hlt : e.2.lastUsed < t1) :
    oldestAux (some (k1, t1)) (e :: rest) =
      oldestAux (some (e.1, e.2.lastUsed)) rest := by
  simp only [oldestAux]
  rw [if_pos hlt]

lemma oldestAux_cons_ge {e : String × CacheEntry} {rest : List (String × CacheEntry)}
    {k1 : String} {t1 : ℕ} (hge : ¬ e.2.lastUsed < t1) :
    oldestAux (some (k1, t1)) (e :: rest) = oldestAux (some (k1, t1)) rest := by
  simp only [oldestAux]
  rw [if_neg hge]

/-- The LRU scan returns an entry of the list (or of the accumulator) whose
time bounds every entry's time and the accumulator's from below. -/
lemma oldestAux_spec :
    ∀ (l : List (String × CacheEntry)) (acc : Option (String × ℕ)),
      (oldestAux acc l = none → acc = none ∧ l = []) ∧
      (∀ k t, oldestAux acc l = some (k, t) →
        ((∃ e ∈ l, e.1 = k ∧ e.2.lastUsed = t) ∨ acc = some (k, t)) ∧
        (∀ e ∈ l, t ≤ e.2.lastUsed) ∧
        (∀ k0 t0, acc = some (k0, t0) → t ≤ t0)) := by
  intro l
  induction l with
  | nil =>
      intro acc
      refine ⟨fun h => ⟨h, rfl⟩, fun k t h => ?_⟩
      refine ⟨Or.inr h, by simp, fun k0 t0 h0 => ?_⟩
      rw [h0] at h
      cases h
      exact le_refl t
  | cons e rest ih =>
      intro acc
      match acc with
      | none =>
          refine ⟨fun h => ?_, fun k t h => ?_⟩
          · rw [oldestAux_cons_none e rest] at h
            exact absurd ((ih _).1 h).1 (by simp)
          · rw [oldestAux_cons_none e rest] at h
            rcases (ih _).2 k t h with ⟨hsrc, hmin, hacc⟩
            have hte : t ≤ e.2.lastUsed := hacc e.1 e.2.lastUsed rfl
            refine ⟨?_, ?_, by simp⟩
            · rcases hsrc with ⟨e', he', h1, h2⟩ | hkt
              · exact Or.inl ⟨e', List.mem_cons_of_mem _ he', h1, h2⟩
              · cases hkt
                exact Or.inl ⟨e, List.mem_cons_self _ _, rfl, rfl⟩
            · intro e' he'
              rcases List.mem_cons.1 he' with rfl | hmem
              · exact hte
              · exact hmin e' hmem
      | some (k1, t1) =>
          by_cases hlt : e.2.lastUsed < t1
          · refine ⟨fun h => ?_, fun k t h => ?_⟩
            · rw [oldestAux_cons_lt hlt] at h
              exact absurd ((ih _).1 h).1 (by simp)
            · rw [oldestAux_cons_lt hlt] at h
              rcases (ih _).2 k t h with ⟨hsrc, hmin, hacc⟩
              have hte : t ≤ e.2.lastUsed := hacc e.1 e.2.lastUsed rfl
              refine ⟨?_, ?_, ?_⟩
              · rcases hsrc with ⟨e', he', h1, h2⟩ | hkt
                · exact Or.inl ⟨e', List.mem_cons_of_mem _ he', h1, h2⟩
                · cases hkt
                  exact Or.inl ⟨e, List.mem_cons_self _ _, rfl, rfl⟩
              · intro e' he'
                rcases List.mem_cons.1 he' with rfl | hmem
                · exact hte
                · exact hmin e' hmem
              · intro k0 t0 h0
                cases h0
                exact le_trans hte (le_of_lt hlt)
          · refine ⟨fun h => ?_, fun k t h => ?_⟩
            · rw [oldestAux_cons_ge hlt] at h
              exact absurd ((ih _).1 h).1 (by simp)
            · rw [oldestAux_cons_ge hlt] at h
              rcases (ih _).2 k t h with ⟨hsrc, hmin, hacc⟩
              have ht1 : t ≤ t1 := hacc k1 t1 rfl
              refine ⟨?_, ?_, fun k0 t0 h0 => ?_⟩
              · rcases hsrc with ⟨e', he', h1, h2⟩ | hkt
                · exact Or.inl ⟨e', List.mem_cons_of_mem _ he', h1, h2⟩
                · exact Or.inr hkt
              · intro e' he'
                rcases List.mem_cons.1 he' with rfl | hmem
                · exact le_trans ht1 (not_lt.1 hlt)
                · exact hmin e' hmem
              · cases h0
                exact ht1

/-- The oldest entry is drawn from the cache and its time is minimal. -/
lemma oldestEntry_min (l : List (String × CacheEntry)) (k : String) (t : ℕ)
    (h : oldestEntry l = some (k, t)) :
    (∃ e ∈ l, e.1 = k ∧ e.2.lastUsed = t) ∧ ∀ e ∈ l, t ≤ e.2.lastUsed := by
  rcases (oldestAux_spec l none).2 k t h with ⟨hsrc, hmin, -⟩
  refine ⟨?_, hmin⟩
  rcases hsrc with hex | hacc
  · exact hex
  · cases hacc

lemma oldestEntry_isSome (l : List (String × CacheEntry)) (hl : l ≠ []) :
    ∃ k t, oldestEntry l = some (k, t) := by
  rcases h : oldestEntry l with _ | ⟨k, t⟩
  · exact absurd ((oldestAux_spec l none).1 h).2 hl
  · exact ⟨k, t, rfl⟩

/-- Eviction at capacity removes exactly one entry. -/
lemma evictLRU_length_at_capacity (c : FigurineCache) (hmax : 0 < c.maxSize)
    (hcap : c.maxSize ≤ c.entries.length) :
    (evictLRU c).entries.length + 1 = c.entries.length := by
  have hne : c.entries ≠ [] := by
    intro h0
    rw [h0] at hcap
    simp at hcap
    omega
  rcases oldestEntry_isSome c.entries hne with ⟨k, t, hk⟩
  rcases oldestEntry_min c.entries k t hk with ⟨⟨e, he, hek, -⟩, -⟩
  unfold evictLRU
  rw [if_neg (by omega)]
  rw [hk]
  dsimp only
  exact List.length_eraseP_add_one he (by simp [hek])

lemma find?_touch_list (key : String) (now : ℕ) :
    ∀ (l : List (String × CacheEntry)) (p : String × CacheEntry),
      l.find? (fun e => e.1 == key) = some p →
      (l.map (fun e =>
          if e.1 == key then (e.1, { e.2 with lastUsed := now }) else e)).find?
          (fun e => e.1 == key) = some (p.1, { p.2 with lastUsed := now }) := by
  intro l
  induction l with
  | nil =>
      intro p hp
      simp at hp
  | cons a rest ih =>
      intro p hp
      by_cases ha : (a.1 == key) = true
      · simp only [List.find?, ha] at hp
        cases hp
        rw [List.map_cons, if_pos ha]
        simp [List.find?, ha]
      · have ha' : (a.1 == key) = false := by simpa using ha
        simp only [List.find?, ha'] at hp
        rw [List.map_cons, if_neg ha]
        simp only [List.find?, ha']
        exact ih p hp

/-- A hit refresh keeps the entry present with its `lastUsed` updated. -/
lemma touch_findEntry (c : FigurineCache) (key : String) (now : ℕ)
    (en : CacheEntry) (h : findEntry c key = some en) :
    findEntry (touch c key now) key = some { en with lastUsed := now } := by
  unfold findEntry at h ⊢
  rcases Option.map_eq_some'.1 h with ⟨p, hp, hpe⟩
  unfold touch
  dsimp only
  rw [find?_touch_list key now c.entries p hp]
  dsimp only
  rw [hpe]
  rfl

end Figurine

open Figurine

/-- C9: one completed `getImage` step never grows the cache beyond
`maxSize` (100 for the global instance); an insertion at capacity evicts
the entry with the least `lastUsed` time; and a hit — through `getImage` or
`getImageSync` — refreshes the entry's `lastUsed` time in place. -/
theorem figurineCache_LRU (c : FigurineCache) (key img : String) (now : ℕ)
    (hmax : 0 < c.maxSize) (hlen : c.entries.length ≤ c.maxSize) :
    (getImageStep c key img now).entries.length ≤ c.maxSize ∧
    figurineCache.maxSize = 100 ∧
    (c.maxSize ≤ c.entries.length →
      ∃ k t, oldestEntry c.entries = some (k, t) ∧
        evictLRU c = { c with entries := c.entries.eraseP (fun e => e.1 == k) } ∧
        (∃ e ∈ c.entries, e.1 = k ∧ e.2.lastUsed = t) ∧
        (∀ e ∈ c.entries, t ≤ e.2.lastUsed)) ∧
    (∀ en, findEntry c key = some en →
      getImageStep c key img now = touch c key now ∧
      (getImageSyncStep c key now).1 = touch c key now ∧
      (getImageSyncStep c key now).2 = some en.image ∧
      findEntry (touch c key now) key = some { en with lastUsed := now }) := by
  refine ⟨?_, rfl, ?_, ?_⟩
  · rcases hfind : findEntry c key with _ | en
    · unfold getImageStep
      rw [hfind]
      dsimp only
      rw [List.length_append]
      by_cases hcap : c.entries.length < c.maxSize
      · have hev : evictLRU c = c := by
          unfold evictLRU
          rw [if_pos hcap]
        rw [hev]
        simp only [List.length_cons, List.length_nil]
        omega
      · have hcap' : c.maxSize ≤ c.entries.length := by omega
        have hev := evictLRU_length_at_capacity c hmax hcap'
        simp only [List.length_cons, List.length_nil]
        omega
    · unfold getImageStep
      rw [hfind]
      dsimp only
      unfold touch
      dsimp only
      rw [List.length_map]
      exact hlen
  · intro hcap
    have hne : c.entries ≠ [] := by
      intro h0
      rw [h0] at hcap
      simp at hcap
      omega
    rcases oldestEntry_isSome c.entries hne with ⟨k, t, hk⟩
    rcases oldestEntry_min c.entries k t hk with ⟨hmem, hmin⟩
    refine ⟨k, t, hk, ?_, hmem, hmin⟩
    unfold evictLRU
    rw [if_neg (by omega), hk]
  · intro en hfind
    refine ⟨?_, ?_, ?_, touch_findEntry c key now en hfind⟩
    · unfold getImageStep
      rw [hfind]
    · unfold getImageSyncStep
      rw [hfind]
    · unfold getImageSyncStep
      rw [hfind]

/-- Witness for C9: a single-entry cache at `maxSize = 2` keeps its size
bound after a `getImage` step for a fresh key. -/
theorem figurineCache_LRU_witness :
    (getImageStep ⟨[("pin-red-medium", ⟨"uri1", 3⟩)], 2⟩ "pin-blue-medium" "uri2" 7).entries.length ≤ 2 :=
  (figurineCache_LRU ⟨[("pin-red-medium", ⟨"uri1", 3⟩)], 2⟩ "pin-blue-medium" "uri2" 7
    (by norm_num) (by simp)).1

end Hexal
